import Mathlib

/-!
Verification of the `uniq` TUI orchestrator against its design specification.

The definitions below are a shallow embedding of the Rust sources:

* `uniq-core/src/merge.rs` — `BlendRatio`, `MergeSpec`, `LineageNode`;
* `uniq-core/src/research.rs` — `PaperMeta`, `TechniqueCard`;
* `uniq-tui/src/action.rs` — `Action`, `Phase`, `InputMode`;
* `uniq-tui/src/components/*.rs` — the per-phase component states and their
  `handle_action` reducers;
* `uniq-tui/src/app.rs` — `App`, `App::handle_action`, the async task
  spawners (modelled as emitted-effect lists) and `App::auto_trigger_phase`;
* `uniq-sidecar/src/manager.rs` — the shutdown sequence of
  `SidecarManager::shutdown`, modelled as an effect trace.

Rust `f64` fields are modelled by `FVal` (either a rational value or `nan`),
whose `partial_cmp` mirrors `PartialOrd for f64` (comparisons involving `nan`
yield `none`).  Rust code that can panic (an `unwrap` of `None`) is modelled
in an error monad: reducers return `Except Crash _`.

`uniq-core/src/variant.rs` and `uniq-core/src/project.rs` are not among the
provided sources (only their declarations and callers are); the types they
declare are modelled from the spec where marked.
-/

namespace Uniq

/-! ## Model of Rust `f64` fields (only comparison is ever used) -/

/-- Model of an `f64` value: either an actual (rational) value or a NaN.
Only `partial_cmp` is ever applied to the modelled floats. -/
inductive FVal where
  | nan : FVal
  | val (q : ℚ) : FVal
deriving DecidableEq, Repr

/-- Rust `PartialOrd::partial_cmp` on `f64`: any comparison involving NaN
returns `None`. -/
def FVal.partial_cmp : FVal → FVal → Option Ordering
  | .val a, .val b => some (if a < b then .lt else if b < a then .gt else .eq)
  | _, _ => none

/-- A Rust panic (e.g. `Option::unwrap` on `None`), or exhaustion of the
recursion fuel used to model the bounded synchronous re-dispatch in
`App::handle_action` (the real recursion depth is at most 3). -/
inductive Crash where
  | panicked (msg : String) : Crash
  | fuelOut : Crash
deriving DecidableEq, Repr

/-! ## uniq-core/src/merge.rs -/

/-- `BlendRatio` — how much of a variant's technique to integrate in a merge. -/
inductive BlendRatio where
  | Zero
  | Quarter
  | Half
  | ThreeQuarter
  | Full
deriving DecidableEq, Repr

/-- `BlendRatio::as_percent`. -/
def BlendRatio.as_percent : BlendRatio → Nat
  | .Zero => 0
  | .Quarter => 25
  | .Half => 50
  | .ThreeQuarter => 75
  | .Full => 100

/-- `BlendRatio::all`. -/
def BlendRatio.all : List BlendRatio :=
  [.Zero, .Quarter, .Half, .ThreeQuarter, .Full]

/-- `BlendRatio::next` — step to the next ratio, saturating at `Full`. -/
def BlendRatio.next : BlendRatio → BlendRatio
  | .Zero => .Quarter
  | .Quarter => .Half
  | .Half => .ThreeQuarter
  | .ThreeQuarter => .Full
  | .Full => .Full

/-- `BlendRatio.prev` — step to the previous ratio, saturating at `Zero`. -/
def BlendRatio.prev : BlendRatio → BlendRatio
  | .Zero => .Zero
  | .Quarter => .Zero
  | .Half => .Quarter
  | .ThreeQuarter => .Half
  | .Full => .ThreeQuarter

/-- The ordinal-inverse position on the 5-step scale, as described by the
spec for the two-sided blend slider ("the paired/complementary value used by
a two-sided slider is the *ordinal* inverse position on the scale").  This
definition follows the SPEC's words; it is used to compare the spec's
pairing rule against what `merge_dialog.rs` actually computes. -/
def BlendRatio.spec_ordinal_inverse : BlendRatio → BlendRatio
  | .Zero => .Full
  | .Quarter => .ThreeQuarter
  | .Half => .Half
  | .ThreeQuarter => .Quarter
  | .Full => .Zero

/-! ## Spec-modelled types from missing sources

`uniq-core/src/variant.rs` and `uniq-core/src/project.rs` are declared in
`uniq-core/src/lib.rs` (`pub mod variant; pub mod project;`) and used
throughout `uniq-tui`, but the files themselves are not among the provided
sources.  The types below are modelled from the spec. -/

/-- Modelled from the spec: `VariantId` from `uniq-core/src/variant.rs`
(missing from the provided sources).  The callers use it as a single-field
newtype over a string (`v.id.0`). -/
structure VariantId where
  s : String
deriving DecidableEq, Repr

/-- Modelled from the spec: `VariantStatus` from `uniq-core/src/variant.rs`
(missing from the provided sources).  Spec §3: "status ∈ {Pending,
Generating, Ready, Failed(reason)}". -/
inductive VariantStatus where
  | Pending
  | Generating
  | Ready
  | Failed (reason : String)
deriving DecidableEq, Repr

/-- Modelled from the spec: `Variant` from `uniq-core/src/variant.rs`
(missing from the provided sources).  Spec §3: "Variant: id, display name,
branch identifier, status, modified-file list, new-dependency list, optional
benchmark results."  Benchmark results only ever have their presence tested
(`is_none()`), so they are modelled by an `Option Unit`. -/
structure Variant where
  id : VariantId
  display_name : String
  branch_name : String
  status : VariantStatus
  modified_files : List String
  new_dependencies : List String
  benchmark_results : Option Unit
deriving DecidableEq, Repr

/-- Modelled from the spec: `ProjectProfile` from
`uniq-core/src/project.rs` (missing from the provided sources).  Spec §6:
"project profile {languages[], file_count, summary, path}". -/
structure ProjectProfile where
  languages : List String
  file_count : Nat
  summary : String
  path : String
deriving DecidableEq, Repr

/-! ## uniq-core/src/merge.rs — `MergeSpec` and `LineageNode` -/

/-- `MergeSpec` — specification for merging two variants. -/
structure MergeSpec where
  parent_a : VariantId
  parent_b : VariantId
  blend_a : BlendRatio
  blend_b : BlendRatio
deriving DecidableEq, Repr

/-- `LineageNode` — a node in the merge lineage tree.  `Merged` owns both
parent subtrees exclusively (`Box<LineageNode>`, moved in). -/
inductive LineageNode where
  | Original (variant_id : VariantId) (technique_name : String) (paper_id : String)
  | Merged (variant_id : VariantId) (blend_a : BlendRatio) (blend_b : BlendRatio)
      (parent_a : LineageNode) (parent_b : LineageNode)
deriving DecidableEq, Repr

/-- `LineageNode::variant_id`. -/
def LineageNode.variant_id : LineageNode → VariantId
  | .Original v _ _ => v
  | .Merged v _ _ _ _ => v

/-- Modelled from the spec: the `attach` operation on lineage trees
(`attach(technique)` creates an Original leaf); the operation itself is not
in the provided sources, only the `LineageNode` data type is. -/
def LineageNode.attach (variant_id : VariantId) (technique_name : String)
    (paper_id : String) : LineageNode :=
  .Original variant_id technique_name paper_id

/-- Modelled from the spec: the `merge` operation on lineage trees
(`merge(node_a, node_b, blend_a, blend_b)` creates a Merged node taking
exclusive ownership of both parent subtrees); not in the provided sources. -/
def LineageNode.mergeNodes (variant_id : VariantId) (node_a node_b : LineageNode)
    (blend_a blend_b : BlendRatio) : LineageNode :=
  .Merged variant_id blend_a blend_b node_a node_b

/-- Modelled from the spec: flattening a lineage tree to its leaves,
returning the (technique, paper) pairs in left-to-right order. -/
def LineageNode.leaves : LineageNode → List (String × String)
  | .Original _ t p => [(t, p)]
  | .Merged _ _ _ a b => a.leaves ++ b.leaves

/-- A build script over the lineage operations: the ways a lineage tree can
be "built via attach/merge operations" (spec §8 round-trip property). -/
inductive LineageBuild where
  | attach (variant_id : VariantId) (technique_name : String) (paper_id : String)
  | mergeB (variant_id : VariantId) (blend_a blend_b : BlendRatio)
      (a b : LineageBuild)

/-- Interpret a build script by running the lineage operations. -/
def LineageBuild.interp : LineageBuild → LineageNode
  | .attach v t p => LineageNode.attach v t p
  | .mergeB v ba bb a b => LineageNode.mergeNodes v a.interp b.interp ba bb

/-- The (technique, paper) pairs a build script was built from, i.e. the
arguments of its `attach` operations in left-to-right order. -/
def LineageBuild.attachedPairs : LineageBuild → List (String × String)
  | .attach _ t p => [(t, p)]
  | .mergeB _ _ _ a b => a.attachedPairs ++ b.attachedPairs

/-! ## uniq-core/src/research.rs -/

/-- `PaperSource` — where a paper record came from. -/
inductive PaperSource where
  | SemanticScholar
  | ArXiv
deriving DecidableEq, Repr

/-- Model of `chrono::NaiveDate` (an external library type; only carried as
data, never inspected by the embedded code). -/
structure NaiveDate where
  year : Int
  month : Nat
  day : Nat
deriving DecidableEq, Repr

/-- `PaperMeta` — metadata about an academic paper. -/
structure PaperMeta where
  id : String
  title : String
  authors : List String
  year : Option Nat
  published_date : Option NaiveDate
  abstract_text : String
  citation_count : Option Nat
  url : String
  pdf_url : Option String
  doi : Option String
  source : PaperSource
  fields : List String
  relevance_score : Option FVal
deriving DecidableEq, Repr

/-- `Complexity` — estimated implementation complexity. -/
inductive Complexity where
  | Low
  | Medium
  | High
deriving DecidableEq, Repr

/-- `TechniqueCard` — a structured technique extracted from a paper. -/
structure TechniqueCard where
  name : String
  paper_id : String
  paper_title : String
  methodology : String
  key_components : List String
  required_data_format : String
  implementation_complexity : Complexity
  hardware_requirements : String
  dependencies : List String
  relevance_score : FVal
  integration_approach : String
  selected : Bool
deriving DecidableEq, Repr

/-! ## uniq-tui/src/action.rs -/

/-- `Phase` — the five pipeline phases. -/
inductive Phase where
  | ProjectIntake
  | ResearchDiscovery
  | TechniqueSelection
  | VariantGeneration
  | Benchmarking
deriving DecidableEq, Repr

/-- `Phase::all`. -/
def Phase.all : List Phase :=
  [.ProjectIntake, .ResearchDiscovery, .TechniqueSelection, .VariantGeneration,
    .Benchmarking]

/-- `Phase::next` — the next phase, if any (no wraparound). -/
def Phase.next : Phase → Option Phase
  | .ProjectIntake => some .ResearchDiscovery
  | .ResearchDiscovery => some .TechniqueSelection
  | .TechniqueSelection => some .VariantGeneration
  | .VariantGeneration => some .Benchmarking
  | .Benchmarking => none

/-- `Phase::prev` — the previous phase, if any (no wraparound). -/
def Phase.prev : Phase → Option Phase
  | .ProjectIntake => none
  | .ResearchDiscovery => some .ProjectIntake
  | .TechniqueSelection => some .ResearchDiscovery
  | .VariantGeneration => some .TechniqueSelection
  | .Benchmarking => some .VariantGeneration

/-- `Phase::index`. -/
def Phase.index : Phase → Nat
  | .ProjectIntake => 0
  | .ResearchDiscovery => 1
  | .TechniqueSelection => 2
  | .VariantGeneration => 3
  | .Benchmarking => 4

/-- `InputMode` — whether keys go to a text field or act as shortcuts. -/
inductive InputMode where
  | Normal
  | Editing
deriving DecidableEq, Repr

/-- `Action` — every possible action in the application. -/
inductive Action where
  | GoToPhase (phase : Phase)
  | NextPhase
  | PrevPhase
  | Quit
  | ToggleHelp
  | SetStatus (msg : String)
  | ClearStatus
  | Tick
  | SubmitProject (path : String) (description : String)
  | ProjectAnalyzed (profile : ProjectProfile)
  | ProjectAnalysisFailed (err : String)
  | StartResearch
  | SearchQueryStarted (query : String) (query_idx : Nat) (total_queries : Nat)
  | PapersFound (papers : List PaperMeta)
  | ResearchComplete
  | ResearchFailed (err : String)
  | StartExtraction (papers : List PaperMeta)
  | ExtractionStarted (paper_title : String)
  | TechniqueExtracted (card : TechniqueCard)
  | TechniqueExtractionFailed (paper_id : String) (error : String)
  | ExtractionComplete
  | ToggleTechnique (idx : Nat)
  | ConfirmTechniques
  | StartGeneration
  | VariantGenerated (variant : Variant)
  | VariantGenerationFailed (variant_id : String) (error : String)
  | GenerationComplete
  | StartBenchmark
  | BenchmarkUpdated (variant_id : String)
  | BenchmarkComplete
  | UserRated (variant_id : String) (stars : Nat) (notes : String)
  | OpenMergeDialog
  | CloseMergeDialog
  | StartMerge (variant_a_id : String) (variant_b_id : String)
      (blend_a : Nat) (blend_b : Nat)
  | MergeComplete (variant : Variant)
  | MergeFailed (err : String)
  | CharInput (c : Char)
  | BackspaceInput
  | DeleteWord
  | NewlineInput
  | SwitchInputField
  | SubmitForm
  | PasteInput
  | PasteBulk (text : String)
  | ScrollUp
  | ScrollDown
  | SelectNext
  | SelectPrev
  | Confirm
deriving DecidableEq, Repr

/-! ## Helpers shared by the component embeddings -/

/-- `Vec::get_mut(idx)` followed by a field update: modify the element at
`idx` when it exists, leave the list unchanged otherwise. -/
def listModify (f : α → α) (idx : Nat) : List α → List α
  | [] => []
  | x :: xs => if idx = 0 then f x :: xs else x :: listModify f (idx - 1) xs

/-- The indexed in-place update loop `for (i, x) in iter_mut().enumerate()`
(used by the auto-select in the `ExtractionComplete` arm). -/
def listMapIdxFrom (f : Nat → α → α) (i : Nat) : List α → List α
  | [] => []
  | x :: xs => f i x :: listMapIdxFrom f (i + 1) xs

/-- `iter_mut().find(p)` followed by an in-place update: rewrite the first
element satisfying `p`, reporting whether one was found. -/
def updateFirstWhere (p : α → Bool) (f : α → α) : List α → List α × Bool
  | [] => ([], false)
  | x :: xs =>
    if p x then (f x :: xs, true)
    else
      let r := updateFirstWhere p f xs
      (x :: r.1, r.2)

/-- Rust `str::contains` (substring containment). -/
def strContains (hay needle : String) : Bool :=
  decide (needle.toList <:+: hay.toList)

/-- Indexing a `Vec` (`v[i]`), which panics when out of bounds. -/
def indexPanic (l : List α) (i : Nat) : Except Crash α :=
  match l.get? i with
  | some x => .ok x
  | none => .error (.panicked "index out of bounds")

/-- `Option::unwrap`, which panics on `None`. -/
def optionUnwrap (o : Option α) : Except Crash α :=
  match o with
  | some x => .ok x
  | none => .error (.panicked "called Option::unwrap on a None value")

/-- Insert into an already-sorted list using a fallible comparator (the
comparator models a Rust closure that can panic). -/
def insertByM (cmp : α → α → Except Crash Ordering) (x : α) :
    List α → Except Crash (List α)
  | [] => .ok [x]
  | y :: ys => do
    let o ← cmp x y
    match o with
    | .lt | .eq => .ok (x :: y :: ys)
    | .gt => do
      let rest ← insertByM cmp x ys
      .ok (y :: rest)

/-- Model of `slice::sort_by` with a comparator that can panic (as the
comparator in `technique_cards.rs` does when `partial_cmp` returns `None`):
a comparison-based stable sort that propagates the panic. -/
def sortByM (cmp : α → α → Except Crash Ordering) :
    List α → Except Crash (List α)
  | [] => .ok []
  | x :: xs => do
    let sorted ← sortByM cmp xs
    insertByM cmp x sorted

/-- `usize::wrapping_add(1)` on the spinner tick counters. -/
def wrapInc (n : Nat) : Nat := (n + 1) % (2 ^ 64)

/-! ## uniq-tui/src/components/technique_cards.rs -/

/-- `TechniqueCardsComponent` — state of the Phase 3 component. -/
structure TechniqueCardsComponent where
  techniques : List TechniqueCard
  selected : Nat
  extracting : Bool
  extraction_attempted : Bool
  progress : Nat × Nat
  errors : List (String × String)
  spinner_tick : Nat
  current_paper : String
  active_papers : List String
deriving DecidableEq, Repr

/-- `TechniqueCardsComponent::new`. -/
def TechniqueCardsComponent.new : TechniqueCardsComponent where
  techniques := []
  selected := 0
  extracting := false
  extraction_attempted := false
  progress := (0, 0)
  errors := []
  spinner_tick := 0
  current_paper := ""
  active_papers := []

/-- `TechniqueCardsComponent::selected_count`. -/
def TechniqueCardsComponent.selected_count (c : TechniqueCardsComponent) : Nat :=
  (c.techniques.filter (·.selected)).length

/-- The sort comparator in the `TechniqueExtracted` arm:
`|a, b| b.relevance_score.partial_cmp(&a.relevance_score).unwrap()`.
It panics when either score is NaN. -/
def techniqueCmp (a b : TechniqueCard) : Except Crash Ordering :=
  optionUnwrap (b.relevance_score.partial_cmp a.relevance_score)

/-- `TechniqueCardsComponent::handle_action`. -/
def TechniqueCardsComponent.handle_action (c : TechniqueCardsComponent)
    (a : Action) : Except Crash (TechniqueCardsComponent × Option Action) :=
  match a with
  | .Tick =>
    .ok ({ c with spinner_tick :=
      if c.extracting then wrapInc c.spinner_tick else c.spinner_tick }, none)
  | .ScrollUp | .SelectPrev =>
    .ok ({ c with selected := if c.selected > 0 then c.selected - 1 else c.selected },
      none)
  | .ScrollDown | .SelectNext =>
    .ok ({ c with selected :=
      if c.selected + 1 < c.techniques.length then c.selected + 1 else c.selected },
      none)
  | .ToggleTechnique idx =>
    let techs := listModify (fun t => { t with selected := !t.selected }) idx
      c.techniques
    .ok ({ c with techniques := techs }, none)
  | .Confirm =>
    let techs := listModify (fun t => { t with selected := !t.selected })
      c.selected c.techniques
    .ok ({ c with techniques := techs }, none)
  | .ExtractionStarted paper_title =>
    let ap := c.active_papers ++ [paper_title]
    .ok ({ c with
      current_paper := paper_title
      active_papers := if ap.length > 5 then ap.drop 1 else ap }, none)
  | .TechniqueExtracted card => do
    let pushed := c.techniques ++ [card]
    let sorted ← sortByM techniqueCmp pushed
    .ok ({ c with
      progress := (c.progress.1 + 1, c.progress.2)
      active_papers := c.active_papers.filter (fun t => !(t = card.paper_title))
      techniques := sorted }, none)
  | .TechniqueExtractionFailed paper_id error =>
    .ok ({ c with
      progress := (c.progress.1 + 1, c.progress.2)
      active_papers := c.active_papers.filter
        (fun t => !strContains paper_id t && !strContains t paper_id)
      errors := c.errors ++ [(paper_id, error)] }, none)
  | .ExtractionComplete =>
    let techs := listMapIdxFrom (fun i t => { t with selected := i < 10 }) 0
      c.techniques
    .ok ({ c with
      extracting := false
      active_papers := []
      current_paper := ""
      techniques := techs },
      some (.SetStatus ("Extracted " ++ toString techs.length
        ++ " techniques. Select and press [Right] to generate variants.")))
  | _ => .ok (c, none)

/-! ## uniq-tui/src/components/research_explorer.rs -/

/-- `ResearchExplorerComponent` — state of the Phase 2 component. -/
structure ResearchExplorerComponent where
  papers : List PaperMeta
  selected : Nat
  searching : Bool
  progress : Nat × Nat
  error : Option String
  detail_expanded : Bool
  detail_scroll : Nat
  spinner_tick : Nat
  current_query : String
  query_progress : Nat × Nat
deriving DecidableEq, Repr

/-- `ResearchExplorerComponent::new`. -/
def ResearchExplorerComponent.new : ResearchExplorerComponent where
  papers := []
  selected := 0
  searching := false
  progress := (0, 0)
  error := none
  detail_expanded := false
  detail_scroll := 0
  spinner_tick := 0
  current_query := ""
  query_progress := (0, 0)

/-- `ResearchExplorerComponent::handle_action`. -/
def ResearchExplorerComponent.handle_action (c : ResearchExplorerComponent)
    (a : Action) : Except Crash (ResearchExplorerComponent × Option Action) :=
  match a with
  | .Tick =>
    .ok ({ c with spinner_tick :=
      if c.searching then wrapInc c.spinner_tick else c.spinner_tick }, none)
  | .Confirm =>
    if c.detail_expanded then
      .ok ({ c with detail_expanded := false, detail_scroll := 0 }, none)
    else if !c.papers.isEmpty then
      .ok ({ c with detail_expanded := true, detail_scroll := 0 }, none)
    else .ok (c, none)
  | .CloseMergeDialog =>
    if c.detail_expanded then
      .ok ({ c with detail_expanded := false, detail_scroll := 0 }, none)
    else .ok (c, none)
  | .ScrollUp | .SelectPrev =>
    if c.detail_expanded then
      .ok ({ c with detail_scroll := c.detail_scroll - 1 }, none)
    else if c.selected > 0 then
      .ok ({ c with selected := c.selected - 1 }, none)
    else .ok (c, none)
  | .ScrollDown | .SelectNext =>
    if c.detail_expanded then
      .ok ({ c with detail_scroll := min (c.detail_scroll + 1) 65535 }, none)
    else if c.selected + 1 < c.papers.length then
      .ok ({ c with selected := c.selected + 1 }, none)
    else .ok (c, none)
  | .SearchQueryStarted query query_idx total_queries =>
    .ok ({ c with current_query := query, query_progress := (query_idx, total_queries) },
      none)
  | .PapersFound ps =>
    .ok ({ c with papers := c.papers ++ ps }, none)
  | .ResearchComplete =>
    .ok ({ c with searching := false, current_query := "" },
      some (.SetStatus ("Found " ++ toString c.papers.length
        ++ " papers. Press [Enter] to view, [Right] for next phase.")))
  | .ResearchFailed err =>
    .ok ({ c with searching := false, error := some err }, none)
  | _ => .ok (c, none)

/-! ## uniq-tui/src/components/variant_builder.rs -/

/-- `VariantBuilderComponent` — state of the Phase 4 component. -/
structure VariantBuilderComponent where
  variants : List Variant
  selected : Nat
  generating : Bool
deriving DecidableEq, Repr

/-- `VariantBuilderComponent::new`. -/
def VariantBuilderComponent.new : VariantBuilderComponent where
  variants := []
  selected := 0
  generating := false

/-- `VariantBuilderComponent::handle_action`. -/
def VariantBuilderComponent.handle_action (c : VariantBuilderComponent)
    (a : Action) : Except Crash (VariantBuilderComponent × Option Action) :=
  match a with
  | .ScrollUp | .SelectPrev =>
    .ok ({ c with selected := if c.selected > 0 then c.selected - 1 else c.selected },
      none)
  | .ScrollDown | .SelectNext =>
    .ok ({ c with selected :=
      if c.selected + 1 < c.variants.length then c.selected + 1 else c.selected },
      none)
  | .VariantGenerated v =>
    let r := updateFirstWhere (fun w => w.id = v.id) (fun _ => v) c.variants
    .ok ({ c with variants := if r.2 then r.1 else c.variants ++ [v] }, none)
  | .VariantGenerationFailed variant_id error =>
    .ok ({ c with variants :=
      (updateFirstWhere (fun w => w.id.s = variant_id)
        (fun w => { w with status := .Failed error }) c.variants).1 }, none)
  | .GenerationComplete =>
    let ready := (c.variants.filter (fun v => v.status = .Ready)).length
    .ok ({ c with generating := false },
      some (.SetStatus (toString ready ++ "/" ++ toString c.variants.length
        ++ " variants generated. Press [Right] to benchmark.")))
  | .MergeComplete v =>
    .ok ({ c with variants := c.variants ++ [v] }, none)
  | _ => .ok (c, none)

/-! ## uniq-tui/src/components/benchmark_dashboard.rs -/

/-- `BenchmarkDashboardComponent` — state of the Phase 5 component. -/
structure BenchmarkDashboardComponent where
  variants : List Variant
  selected : Nat
  benchmarking : Bool
deriving DecidableEq, Repr

/-- `BenchmarkDashboardComponent::new`. -/
def BenchmarkDashboardComponent.new : BenchmarkDashboardComponent where
  variants := []
  selected := 0
  benchmarking := false

/-- `BenchmarkDashboardComponent::handle_action`. -/
def BenchmarkDashboardComponent.handle_action (c : BenchmarkDashboardComponent)
    (a : Action) : Except Crash (BenchmarkDashboardComponent × Option Action) :=
  match a with
  | .ScrollUp | .SelectPrev =>
    .ok ({ c with selected := if c.selected > 0 then c.selected - 1 else c.selected },
      none)
  | .ScrollDown | .SelectNext =>
    .ok ({ c with selected :=
      if c.selected + 1 < c.variants.length then c.selected + 1 else c.selected },
      none)
  | .BenchmarkComplete =>
    .ok ({ c with benchmarking := false },
      some (.SetStatus "Benchmarking complete!"))
  | _ => .ok (c, none)

/-! ## uniq-tui/src/components/merge_dialog.rs -/

/-- `MergeField` — which field of the merge dialog is focused. -/
inductive MergeField where
  | VariantA
  | VariantB
  | BlendSlider
deriving DecidableEq, Repr

/-- `MergeDialogComponent` — state of the merge overlay. -/
structure MergeDialogComponent where
  visible : Bool
  available_variants : List (String × String)
  variant_a_idx : Nat
  variant_b_idx : Nat
  blend_a : BlendRatio
  blend_b : BlendRatio
  focused : MergeField
  merging : Bool
deriving DecidableEq, Repr

/-- `MergeDialogComponent::new`. -/
def MergeDialogComponent.new : MergeDialogComponent where
  visible := false
  available_variants := []
  variant_a_idx := 0
  variant_b_idx := 1
  blend_a := .Half
  blend_b := .Half
  focused := .VariantA
  merging := false

/-- `MergeDialogComponent::handle_action`. -/
def MergeDialogComponent.handle_action (c : MergeDialogComponent) (a : Action) :
    Except Crash (MergeDialogComponent × Option Action) :=
  if !c.visible then
    match a with
    | .OpenMergeDialog =>
      .ok ({ c with visible := true, focused := .VariantA }, none)
    | _ => .ok (c, none)
  else
    match a with
    | .CloseMergeDialog => .ok ({ c with visible := false }, none)
    | .ScrollDown | .SelectNext =>
      .ok ({ c with focused :=
        match c.focused with
        | .VariantA => .VariantB
        | .VariantB => .BlendSlider
        | .BlendSlider => .BlendSlider }, none)
    | .ScrollUp | .SelectPrev =>
      .ok ({ c with focused :=
        match c.focused with
        | .VariantA => .VariantA
        | .VariantB => .VariantA
        | .BlendSlider => .VariantB }, none)
    | .NextPhase =>
      match c.focused with
      | .VariantA =>
        .ok ({ c with variant_a_idx :=
          if c.variant_a_idx + 1 < c.available_variants.length then
            c.variant_a_idx + 1 else c.variant_a_idx }, none)
      | .VariantB =>
        .ok ({ c with variant_b_idx :=
          if c.variant_b_idx + 1 < c.available_variants.length then
            c.variant_b_idx + 1 else c.variant_b_idx }, none)
      | .BlendSlider =>
        let ba := c.blend_a.next
        .ok ({ c with blend_a := ba, blend_b := ba.prev }, none)
    | .PrevPhase =>
      match c.focused with
      | .VariantA =>
        .ok ({ c with variant_a_idx :=
          if c.variant_a_idx > 0 then c.variant_a_idx - 1 else c.variant_a_idx },
          none)
      | .VariantB =>
        .ok ({ c with variant_b_idx :=
          if c.variant_b_idx > 0 then c.variant_b_idx - 1 else c.variant_b_idx },
          none)
      | .BlendSlider =>
        let ba := c.blend_a.prev
        .ok ({ c with blend_a := ba, blend_b := ba.next }, none)
    | .Confirm =>
      if c.variant_a_idx = c.variant_b_idx then
        .ok (c, some (.SetStatus "Cannot merge a variant with itself"))
      else if c.available_variants.length < 2 then
        .ok (c, some (.SetStatus "Need at least 2 variants to merge"))
      else do
        let va ← indexPanic c.available_variants c.variant_a_idx
        let vb ← indexPanic c.available_variants c.variant_b_idx
        .ok ({ c with merging := true, visible := false },
          some (.StartMerge va.1 vb.1 c.blend_a.as_percent c.blend_b.as_percent))
    | _ => .ok (c, none)

/-! ## uniq-tui/src/components/help.rs and status_bar.rs -/

/-- `HelpComponent` — the help overlay. -/
structure HelpComponent where
  visible : Bool
deriving DecidableEq, Repr

/-- `HelpComponent::new`. -/
def HelpComponent.new : HelpComponent where
  visible := false

/-- `HelpComponent::handle_action`: `ToggleHelp` toggles; while visible, any
other action closes the overlay. -/
def HelpComponent.handle_action (c : HelpComponent) (a : Action) :
    Except Crash (HelpComponent × Option Action) :=
  match a with
  | .ToggleHelp => .ok ({ visible := !c.visible }, none)
  | _ =>
    if c.visible then .ok ({ visible := false }, none)
    else .ok (c, none)

/-- `StatusBarComponent` — the bottom status bar. -/
structure StatusBarComponent where
  message : String
  current_phase : Phase
deriving DecidableEq, Repr

/-- `StatusBarComponent::new`. -/
def StatusBarComponent.new : StatusBarComponent where
  message := "Welcome to uniq. Set up your project in Phase 1."
  current_phase := .ProjectIntake

/-- `StatusBarComponent::handle_action`. -/
def StatusBarComponent.handle_action (c : StatusBarComponent) (a : Action) :
    Except Crash (StatusBarComponent × Option Action) :=
  match a with
  | .SetStatus msg => .ok ({ c with message := msg }, none)
  | .ClearStatus => .ok ({ c with message := "" }, none)
  | .GoToPhase phase => .ok ({ c with current_phase := phase }, none)
  | _ => .ok (c, none)

/-! ## uniq-tui/src/components/project_intake.rs

Only the async-result arms of this component's reducer are embedded in
full.  The text-editing, clipboard and filesystem-autocomplete arms
(`CharInput`, `BackspaceInput`, `DeleteWord`, `PasteInput`, `PasteBulk`,
`SwitchInputField`, `ScrollUp`/`ScrollDown`, `NewlineInput`, `SubmitForm`,
`Confirm`) manipulate only this component's own text buffers and perform
filesystem IO; the spec places "text-input/autocomplete mechanics"
explicitly out of scope, and no claim (and no theorem below) dispatches any
of those actions to this component.  They are modelled as no-ops here. -/

/-- `InputField` — which intake text field is focused. -/
inductive InputField where
  | Path
  | Description
deriving DecidableEq, Repr

/-- `PathSuggestion` — one filesystem autocomplete entry. -/
structure PathSuggestion where
  full_path : String
  name : String
  is_dir : Bool
deriving DecidableEq, Repr

/-- `ProjectIntakeComponent` — state of the Phase 1 component. -/
structure ProjectIntakeComponent where
  path_input : String
  description_input : String
  focused : InputField
  cursor : Nat
  profile : Option ProjectProfile
  analyzing : Bool
  error : Option String
  desc_scroll : Nat
  suggestions : List PathSuggestion
  suggestion_index : Option Nat
  suggestions_for : String
deriving DecidableEq, Repr

/-- `ProjectIntakeComponent::new` (fields default to empty/false). -/
def ProjectIntakeComponent.new : ProjectIntakeComponent where
  path_input := ""
  description_input := ""
  focused := .Path
  cursor := 0
  profile := none
  analyzing := false
  error := none
  desc_scroll := 0
  suggestions := []
  suggestion_index := none
  suggestions_for := ""

/-- `ProjectIntakeComponent::wants_input`. -/
def ProjectIntakeComponent.wants_input (c : ProjectIntakeComponent) : Bool :=
  c.profile.isNone && !c.analyzing

/-- `ProjectIntakeComponent::handle_action` (async-result arms embedded;
text-editing arms are out-of-scope no-ops, see the section comment). -/
def ProjectIntakeComponent.handle_action (c : ProjectIntakeComponent)
    (a : Action) : Except Crash (ProjectIntakeComponent × Option Action) :=
  match a with
  | .ProjectAnalyzed profile =>
    .ok ({ c with analyzing := false, profile := some profile }, none)
  | .ProjectAnalysisFailed err =>
    .ok ({ c with analyzing := false, error := some err }, none)
  | _ => .ok (c, none)

/-! ## uniq-tui/src/app.rs — the reducer

`App::handle_action` is embedded as a function from a state and an action to
a new state, a list of emitted effects (everything the reducer hands to the
runtime: `tx.send(..)` calls and `tokio::spawn(..)` calls, in program
order), and the dispatch trace (the list of actions `handle_action` was
invoked on, including the bounded synchronous re-dispatches).  Spawned tasks
are modelled by the arguments they capture; their bodies run outside the
reducer and report back by sending actions. -/

/-- A background task spawned by the reducer (`tokio::spawn`).  Each
constructor records the arguments moved into the corresponding task in
`app.rs`. -/
inductive SpawnedTask where
  | analyzeProject (path : String) (description : String)
  | searchPapers (description : String) (summary : String)
  | extractTechnique (paper : PaperMeta) (project_summary : String)
      (user_request : String)
  | generateVariant (technique : TechniqueCard) (profile : ProjectProfile)
      (branch_name : String) (index : Nat) (variant_id : String)
  | runBenchmark (branches : List String) (project_path : String)
  | llmJudge (branches : List String) (project_path : String)
      (user_request : String)
deriving DecidableEq, Repr

/-- How many remote (sidecar HTTP) calls a spawned task performs.  Every
extraction task performs exactly one `extract_technique` call; the analyze /
search / generate / benchmark tasks make their own calls. -/
def SpawnedTask.remoteCalls : SpawnedTask → Nat
  | .searchPapers _ _ => 4
  | _ => 1

/-- An effect emitted by the reducer while handling one action. -/
inductive Emit where
  | send (a : Action)
  | task (t : SpawnedTask)
deriving DecidableEq, Repr

/-- Whether an emitted effect is an extraction task for the given paper id
(used to count remote calls attributable to one paper). -/
def Emit.isExtractTaskFor (pid : String) : Emit → Bool
  | .task (.extractTechnique p _ _) => p.id == pid
  | _ => false

/-- `App` — the aggregate application state owned by the reducer.  The
terminal handle, the event-handler plumbing and the sidecar process objects
are runtime resources, not reducer state; the only thing the reducer ever
reads from them is whether `self.sidecar_client` is `Some`, kept here as a
`Bool`. -/
structure App where
  current_phase : Phase
  should_quit : Bool
  sidecar_client : Bool
  user_description : String
  project_intake : ProjectIntakeComponent
  research_explorer : ResearchExplorerComponent
  technique_cards : TechniqueCardsComponent
  variant_builder : VariantBuilderComponent
  benchmark_dashboard : BenchmarkDashboardComponent
  merge_dialog : MergeDialogComponent
  status_bar : StatusBarComponent
  help : HelpComponent
deriving DecidableEq, Repr

/-- `App::new` (with no sidecar client yet). -/
def App.new : App where
  current_phase := .ProjectIntake
  should_quit := false
  sidecar_client := false
  user_description := ""
  project_intake := .new
  research_explorer := .new
  technique_cards := .new
  variant_builder := .new
  benchmark_dashboard := .new
  merge_dialog := .new
  status_bar := .new
  help := .new

/-- `App::current_input_mode`. -/
def App.current_input_mode (s : App) : InputMode :=
  if s.help.visible || s.merge_dialog.visible then .Normal
  else
    match s.current_phase with
    | .ProjectIntake =>
      if s.project_intake.wants_input then .Editing else .Normal
    | _ => .Normal

/-- `App::auto_trigger_phase` — pure predicates over the aggregate state;
emits the phase's start-job action when its predicate holds. -/
def App.auto_trigger_phase (s : App) (phase : Phase) : List Emit :=
  match phase with
  | .ResearchDiscovery =>
    if s.project_intake.profile.isSome && s.research_explorer.papers.isEmpty
        && !s.research_explorer.searching then
      [.send .StartResearch]
    else []
  | .TechniqueSelection =>
    if !s.research_explorer.papers.isEmpty
        && s.technique_cards.techniques.isEmpty
        && !s.technique_cards.extracting
        && !s.technique_cards.extraction_attempted then
      [.send (.StartExtraction s.research_explorer.papers)]
    else []
  | .VariantGeneration =>
    if s.technique_cards.selected_count > 0
        && s.variant_builder.variants.isEmpty
        && !s.variant_builder.generating then
      [.send .StartGeneration]
    else []
  | .Benchmarking =>
    let has_ready := s.variant_builder.variants.any
      (fun v => v.status == VariantStatus.Ready)
    let none_benchmarked := s.benchmark_dashboard.variants.isEmpty
      || s.benchmark_dashboard.variants.all (fun v => v.benchmark_results.isNone)
    if has_ready && none_benchmarked && !s.benchmark_dashboard.benchmarking then
      [.send .StartBenchmark]
    else []
  | .ProjectIntake => []

/-- `App::spawn_analyze_project`. -/
def App.spawn_analyze_project (s : App) (path : String) (description : String) :
    List Emit :=
  if !s.sidecar_client then
    [.send (.ProjectAnalysisFailed "Sidecar is not running. Cannot analyze project.")]
  else
    [.send (.SetStatus "Analyzing project..."),
      .task (.analyzeProject path description)]

/-- `App::spawn_search_papers` (the query construction and per-query loop
happen inside the spawned task, which captures the description and project
summary). -/
def App.spawn_search_papers (s : App) : List Emit :=
  if !s.sidecar_client then
    [.send (.ResearchFailed "Sidecar is not running.")]
  else
    let summary := (s.project_intake.profile.map (·.summary)).getD ""
    [.send (.SetStatus "Searching for papers..."),
      .task (.searchPapers s.user_description summary)]

/-- The per-paper body of the loop in `App::spawn_extract_techniques`: a
paper with neither a PDF URL nor a DOI reports failure immediately
(`continue`) and no task is spawned for it; any other paper gets its own
concurrent task that performs the single remote call. -/
def App.extractEmitFor (s : App) (project_summary : String) (p : PaperMeta) :
    List Emit :=
  if p.pdf_url.isNone && p.doi.isNone then
    [.send (.TechniqueExtractionFailed p.id "No PDF URL or DOI available")]
  else
    [.task (.extractTechnique p project_summary s.user_description)]

/-- `App::spawn_extract_techniques` — sends a status line, then one
concurrent task (or one immediate failure) per paper. -/
def App.spawn_extract_techniques (s : App) (papers : List PaperMeta) :
    List Emit :=
  if !s.sidecar_client then
    [.send (.TechniqueExtractionFailed "all" "Sidecar is not running.")]
  else
    let project_summary := (s.project_intake.profile.map (·.summary)).getD ""
    .send (.SetStatus ("Extracting techniques from " ++ toString papers.length
        ++ " papers...")) ::
      papers.flatMap (s.extractEmitFor project_summary)

/-- Modelled from the spec: `Variant::from_technique` from
`uniq-core/src/variant.rs` (missing from the provided sources).  Spec §3:
variants are "Created Pending at generation request time"; the id and
branch name are derived from the 1-based index (the exact derivation lives
in the missing file and is modelled injectively from the index). -/
def Variant.from_technique (index : Nat) (t : TechniqueCard) : Variant where
  id := ⟨"variant-" ++ toString index⟩
  display_name := t.name
  branch_name := "uniq/variant-" ++ toString index
  status := .Pending
  modified_files := []
  new_dependencies := []
  benchmark_results := none

/-- `App::spawn_generate_variants` — pushes a Pending stub per selected
technique and spawns one generation task per stub. -/
def App.spawn_generate_variants (s : App) : App × List Emit :=
  if !s.sidecar_client then
    (s, [.send (.VariantGenerationFailed "all" "Sidecar is not running.")])
  else
    match s.project_intake.profile with
    | none =>
      (s, [.send (.SetStatus "No project profile — analyze a project first.")])
    | some profile =>
      let selected := s.technique_cards.techniques.filter (·.selected)
      if selected.isEmpty then
        (s, [.send (.SetStatus
          "No techniques selected. Go back to Phase 3 and select some.")])
      else
        let stubs := (List.range selected.length).zip selected |>.map
          (fun iq => Variant.from_technique (iq.1 + 1) iq.2)
        let tasks : List Emit := (List.range selected.length).zip selected |>.map
          (fun iq =>
            let v := Variant.from_technique (iq.1 + 1) iq.2
            .task (.generateVariant iq.2 profile v.branch_name (iq.1 + 1) v.id.s))
        let vb := { s.variant_builder with
          generating := true
          variants := s.variant_builder.variants ++ stubs }
        ({ s with variant_builder := vb },
          .send (.SetStatus ("Generating " ++ toString selected.length
            ++ " variants...")) :: tasks)

/-- `App::spawn_run_benchmarks`. -/
def App.spawn_run_benchmarks (s : App) : App × List Emit :=
  if !s.sidecar_client then
    (s, [.send (.SetStatus "Sidecar is not running.")])
  else
    match s.project_intake.profile with
    | none => (s, [.send (.SetStatus "No project path available.")])
    | some profile =>
      let bd := { s.benchmark_dashboard with
        variants := s.variant_builder.variants
        benchmarking := true }
      let s1 := { s with benchmark_dashboard := bd }
      let ready_branches := (s.variant_builder.variants.filter
        (fun v => v.status == VariantStatus.Ready)).map (·.branch_name)
      if ready_branches.isEmpty then
        ({ s1 with benchmark_dashboard :=
            { s1.benchmark_dashboard with benchmarking := false } },
          [.send (.SetStatus "No ready variants to benchmark.")])
      else
        (s1,
          [.send (.SetStatus ("Running benchmarks on "
              ++ toString ready_branches.length ++ " variants...")),
            .task (.runBenchmark ready_branches profile.path),
            .task (.llmJudge ready_branches profile.path s.user_description)])

/-- Is this action one of the extraction job's terminal unit reports? -/
def Action.isExtractTerminal : Action → Bool
  | .TechniqueExtracted _ | .TechniqueExtractionFailed _ _ => true
  | _ => false

/-- Is this action one of the generation job's terminal unit reports? -/
def Action.isGenTerminal : Action → Bool
  | .VariantGenerated _ | .VariantGenerationFailed _ _ => true
  | _ => false

/-- The negated `matches!(v.status, Pending | Generating)` test used by the
generation-completion check. -/
def VariantStatus.isSettled : VariantStatus → Bool
  | .Pending | .Generating => false
  | _ => true

/-- The global-action arm of `App::handle_action`: everything the reducer
does before forwarding the action to the components (`Quit` is handled by
the caller).  Returns the updated state and the effects emitted so far. -/
def App.globalStep (s0 : App) (a : Action) : App × List Emit :=
  match a with
  | .GoToPhase phase =>
    let s' := { s0 with
      current_phase := phase
      status_bar := { s0.status_bar with current_phase := phase } }
    (s', s'.auto_trigger_phase phase)
  | .NextPhase =>
    if s0.current_input_mode ≠ .Editing then
      match s0.current_phase.next with
      | some nxt =>
        if !s0.merge_dialog.visible then
          let s' := { s0 with
            current_phase := nxt
            status_bar := { s0.status_bar with current_phase := nxt } }
          (s', s'.auto_trigger_phase nxt)
        else (s0, [])
      | none => (s0, [])
    else (s0, [])
  | .PrevPhase =>
    if s0.current_input_mode ≠ .Editing then
      match s0.current_phase.prev with
      | some prv =>
        if !s0.merge_dialog.visible then
          ({ s0 with
            current_phase := prv
            status_bar := { s0.status_bar with current_phase := prv } }, [])
        else (s0, [])
      | none => (s0, [])
    else (s0, [])
  | .SubmitProject path description =>
    let s' := { s0 with user_description := description }
    (s', s'.spawn_analyze_project path description)
  | .StartResearch =>
    if !s0.research_explorer.searching then
      let s' := { s0 with research_explorer :=
        { s0.research_explorer with searching := true } }
      (s', s'.spawn_search_papers)
    else (s0, [])
  | .StartExtraction papers =>
    if !s0.technique_cards.extracting then
      let s' := { s0 with technique_cards :=
        { s0.technique_cards with
          extracting := true
          extraction_attempted := true
          progress := (0, papers.length) } }
      (s', s'.spawn_extract_techniques papers)
    else (s0, [])
  | .StartGeneration =>
    if !s0.variant_builder.generating then s0.spawn_generate_variants
    else (s0, [])
  | .StartBenchmark =>
    if !s0.benchmark_dashboard.benchmarking then s0.spawn_run_benchmarks
    else (s0, [])
  | _ => (s0, [])

/-- Forward the action to the active phase's component, returning the
updated state and the component's chained action. -/
def App.forwardStep (s : App) (a : Action) :
    Except Crash (App × Option Action) :=
  match s.current_phase with
  | .ProjectIntake => do
    let r ← s.project_intake.handle_action a
    pure ({ s with project_intake := r.1 }, r.2)
  | .ResearchDiscovery => do
    let r ← s.research_explorer.handle_action a
    pure ({ s with research_explorer := r.1 }, r.2)
  | .TechniqueSelection => do
    let r ← s.technique_cards.handle_action a
    pure ({ s with technique_cards := r.1 }, r.2)
  | .VariantGeneration => do
    let r ← s.variant_builder.handle_action a
    pure ({ s with variant_builder := r.1 }, r.2)
  | .Benchmarking => do
    let r ← s.benchmark_dashboard.handle_action a
    pure ({ s with benchmark_dashboard := r.1 }, r.2)

/-- Always forward to the overlays and the status bar; their chained
results are discarded by `app.rs` (the calls are not bound). -/
def App.overlayStep (s : App) (a : Action) : Except Crash App := do
  let md ← s.merge_dialog.handle_action a
  let s1 := { s with merge_dialog := md.1 }
  let hp ← s1.help.handle_action a
  let s2 := { s1 with help := hp.1 }
  let sb ← s2.status_bar.handle_action a
  pure { s2 with status_bar := sb.1 }

/-- Auto-advance to Phase 2 after project analysis completes. -/
def App.autoAdvanceStep (s : App) (a : Action) : App × List Emit :=
  if (match a with | .ProjectAnalyzed _ => true | _ => false)
      && s.project_intake.profile.isSome then
    let s' := { s with
      current_phase := .ResearchDiscovery
      status_bar := { s.status_bar with current_phase := .ResearchDiscovery } }
    (s', s'.auto_trigger_phase .ResearchDiscovery)
  else (s, [])

/-- `App::handle_action`, with explicit fuel for the bounded synchronous
re-dispatches (`self.handle_action(&Action::ExtractionComplete, tx)` etc.;
the real depth never exceeds 3).  Returns the new state, the emitted
effects in program order, and the dispatch trace: every action
`handle_action` was invoked on, top-level action first. -/
def App.handle_actionF : Nat → App → Action →
    Except Crash (App × List Emit × List Action)
  | 0, _, _ => .error .fuelOut
  | fuel + 1, s0, a =>
    if a = .Quit then .ok ({ s0 with should_quit := true }, [], [a])
    else do
      let g := s0.globalStep a
      let fwd ← g.1.forwardStep a
      let s5 ← fwd.1.overlayStep a
      let adv := s5.autoAdvanceStep a
      -- Check if all technique extraction is complete.
      let ec ← (if adv.1.technique_cards.extracting && a.isExtractTerminal then
          if 0 < adv.1.technique_cards.progress.2
              ∧ adv.1.technique_cards.progress.2
                ≤ adv.1.technique_cards.progress.1 then
            App.handle_actionF fuel adv.1 .ExtractionComplete
          else pure (adv.1, [], [])
        else pure (adv.1, [], []))
      -- Check if all variant generation is complete.
      let gc ← (if ec.1.variant_builder.generating && a.isGenTerminal then
          if ec.1.variant_builder.variants.all (fun v => v.status.isSettled) then
            App.handle_actionF fuel ec.1 .GenerationComplete
          else pure (ec.1, [], [])
        else pure (ec.1, [], []))
      -- Handle chained actions from the active phase component.
      let ch ← (match fwd.2 with
        | some ca => App.handle_actionF fuel gc.1 ca
        | none => pure (gc.1, [], []))
      .ok (ch.1, g.2 ++ adv.2 ++ ec.2.1 ++ gc.2.1 ++ ch.2.1,
        a :: (ec.2.2 ++ gc.2.2 ++ ch.2.2))

/-- `App::handle_action` at the fuel bound that covers the real recursion
depth (at most 3 nested dispatches occur: a terminal report, the
synthesized job-complete action, and the latter's chained status update). -/
def App.dispatch (s : App) (a : Action) :
    Except Crash (App × List Emit × List Action) :=
  App.handle_actionF 4 s a

/-- The main loop's action-draining: dispatch a queue of actions in FIFO
order, stopping (as `App::run` does) when `should_quit` is set. -/
def App.runActions (s : App) : List Action →
    Except Crash (App × List Emit × List Action)
  | [] => .ok (s, [], [])
  | a :: rest => do
    let r1 ← s.dispatch a
    if r1.1.should_quit then
      .ok (r1.1, r1.2.1, r1.2.2)
    else do
      let r2 ← r1.1.runActions rest
      .ok (r2.1, r1.2.1 ++ r2.2.1, r1.2.2 ++ r2.2.2)

/-! ## uniq-sidecar/src/manager.rs — the shutdown sequence

`SidecarManager::shutdown` interacts with the child process and the network;
it is embedded as a trace of the effects it performs, as a function of the
environment's responses (whether the graceful HTTP request succeeded, and
what `child.try_wait()` reported). -/

/-- The observable effects of `SidecarManager::shutdown`, in program order:
the graceful `POST /api/shutdown`, the 2-second grace sleep, the
`child.try_wait()` status check, and `child.kill()`. -/
inductive ShutdownEffect where
  | gracefulRequest
  | graceSleep
  | statusCheck
  | kill
deriving DecidableEq, Repr

/-- The three outcomes of `child.try_wait()`: `Ok(Some(status))` (exited),
`Ok(None)` (still running), `Err(e)`. -/
inductive TryWaitOutcome where
  | exited
  | stillRunning
  | checkError
deriving DecidableEq, Repr

/-- The environment's responses during one `shutdown()` call. -/
structure ShutdownEnv where
  requestOk : Bool
  tryWait : TryWaitOutcome
deriving DecidableEq, Repr

/-- `SidecarManager::shutdown` as an effect trace.  `hasChild` is whether
`self.child` is `Some` (the whole body is under `if let Some(ref mut child)`).
The grace sleep is performed in the `Ok` arm of the graceful request; the
status check always follows, and the kill is issued only when `try_wait()`
reports the child still running. -/
def SidecarManager.shutdownTrace (hasChild : Bool) (env : ShutdownEnv) :
    List ShutdownEffect :=
  if hasChild then
    [.gracefulRequest]
      ++ (if env.requestOk then [.graceSleep] else [])
      ++ [.statusCheck]
      ++ (match env.tryWait with
          | .stillRunning => [.kill]
          | _ => [])
  else []

/-! ### Concrete fixtures for the evaluation theorems -/

/-- A minimal concrete technique card. -/
def mkCard (nm pid : String) (score : FVal) : TechniqueCard where
  name := nm
  paper_id := pid
  paper_title := pid
  methodology := ""
  key_components := []
  required_data_format := ""
  implementation_complexity := .Low
  hardware_requirements := ""
  dependencies := []
  relevance_score := score
  integration_approach := ""
  selected := false

/-- A minimal concrete paper record. -/
def mkPaper (pid : String) (pdf doi : Option String) : PaperMeta where
  id := pid
  title := pid
  authors := []
  year := none
  published_date := none
  abstract_text := ""
  citation_count := none
  url := ""
  pdf_url := pdf
  doi := doi
  source := .ArXiv
  fields := []
  relevance_score := none

/-! ### C6 — extraction fan-out: local-precondition failures and partial
failure policy -/

/-- The three papers of the spec's scenario: paper #2 has neither a PDF URL
nor a DOI. -/
def c6_papers : List PaperMeta :=
  [mkPaper "p1" (some "u1") none, mkPaper "p2" none none,
    mkPaper "p3" none (some "d3")]

/-- The three terminal unit reports of the scenario: the immediate failure
for paper #2 and the two successful extractions. -/
def c6_reports : List Action :=
  [.TechniqueExtracted (mkCard "t1" "p1" (.val 1)),
    .TechniqueExtractionFailed "p2" "No PDF URL or DOI available",
    .TechniqueExtracted (mkCard "t3" "p3" (.val 2))]

/-- The state from which the scenario starts: Phase 3 active, sidecar up. -/
def c6_base : App :=
  { App.new with current_phase := .TechniqueSelection, sidecar_client := true }

/-! ### C2 — fan-out completion, single-unit witness fixtures -/

/-- A pending generation stub used in the single-variant scenario. -/
def c2_stub : Variant :=
  { id := ⟨"variant-0"⟩
    display_name := "v0"
    branch_name := "uniq/v0"
    status := .Pending
    modified_files := []
    new_dependencies := []
    benchmark_results := none }

/-- The extraction-side start state of the single-paper scenario: Phase 3
active, extraction running with one expected report. -/
def c2_ext_base : App :=
  { App.new with
      current_phase := .TechniqueSelection
      technique_cards := { TechniqueCardsComponent.new with
        extracting := true
        progress := (0, 1) } }

/-- The generation-side start state of the single-variant scenario: Phase 4
active, generation running over one pending stub. -/
def c2_gen_base : App :=
  { App.new with
      current_phase := .VariantGeneration
      variant_builder := { VariantBuilderComponent.new with
        variants := [c2_stub]
        generating := true } }

/-- The `VariantGenerated` arm's update of the tracked collection
(`variant_builder.rs`): replace the stub whose id matches the report's
variant, or append the variant if no stub matches. -/
def vbApplyGenerated (c : VariantBuilderComponent) (v : Variant) :
    List Variant :=
  let r := updateFirstWhere (fun w => w.id = v.id) (fun _ => v) c.variants
  if r.2 then r.1 else c.variants ++ [v]

/-- A state with the merge dialog open (Phase 1 otherwise untouched). -/
def c10_base : App :=
  { App.new with merge_dialog :=
    { MergeDialogComponent.new with visible := true } }

/-- The terminal unit-reports of a generation fan-out job: one report per
remaining pending variant, in any arrival order.  A success report carries
the freshly built `Ready` variant with the stub's id; a failure report
carries the stub's id string. -/
inductive GenReports : List Action → List Variant → Prop where
  | nil : GenReports [] []
  | success (w st : Variant) (rest : List Action) (rem : List Variant) :
      st ∈ rem → w.id = st.id → w.status = .Ready →
      GenReports rest (rem.erase st) →
      GenReports (.VariantGenerated w :: rest) rem
  | failure (st : Variant) (err : String) (rest : List Action)
      (rem : List Variant) :
      st ∈ rem →
      GenReports rest (rem.erase st) →
      GenReports (.VariantGenerationFailed st.id.s err :: rest) rem


/-! ## Theorems -/

/-! ## Evaluation toolkit

Small lemmas used to evaluate the staged reducer symbolically. -/

/-- Bind on an `ok` value reduces. -/
theorem exceptBind_ok {α β : Type} (x : α) (f : α → Except Crash β) :
    (Except.ok x >>= f) = f x := rfl

/-- `pure` for the error monad is `ok`. -/
theorem exceptPure_eq {α : Type} (x : α) :
    (pure x : Except Crash α) = .ok x := rfl

/-- The status bar handler always succeeds and never chains. -/
theorem statusBarHandle_isOk (c : StatusBarComponent) (a : Action) :
    ∃ c', c.handle_action a = .ok (c', none) := by
  cases a <;> exact ⟨_, rfl⟩

/-- The help handler always succeeds and never chains. -/
theorem helpHandle_isOk (c : HelpComponent) (a : Action) :
    ∃ c', c.handle_action a = .ok (c', none) := by
  cases a <;> simp [HelpComponent.handle_action] <;>
    (cases hv : c.visible <;> simp [hv])

/-- The merge dialog handler succeeds and never chains except on `Confirm`. -/
theorem mergeHandle_isOk (c : MergeDialogComponent) (a : Action)
    (h : a ≠ .Confirm) : ∃ c', c.handle_action a = .ok (c', none) := by
  unfold MergeDialogComponent.handle_action
  cases hv : c.visible <;> simp [hv] <;> cases a <;>
    first
      | exact ⟨_, rfl⟩
      | exact absurd rfl h
      | (cases hf : c.focused <;> exact ⟨_, rfl⟩)

/-- Evaluating the overlay stage from the three handler results. -/
theorem overlayStep_eq (s : App) (a : Action)
    {md : MergeDialogComponent × Option Action}
    {hp : HelpComponent × Option Action}
    {sb : StatusBarComponent × Option Action}
    (hmd : s.merge_dialog.handle_action a = .ok md)
    (hhp : s.help.handle_action a = .ok hp)
    (hsb : s.status_bar.handle_action a = .ok sb) :
    s.overlayStep a = .ok
      { s with merge_dialog := md.1, help := hp.1, status_bar := sb.1 } := by
  unfold App.overlayStep
  simp only [hmd, hhp, hsb, exceptBind_ok]
  rfl


theorem forwardStep_noop_nav (s : App) (a : Action)
    (h : a = .NextPhase ∨ a = .PrevPhase) :
    s.forwardStep a = .ok (s, none) := by
  obtain ⟨ph, q, c, ud, pi, re, tc, vb, bd, md, sb, hp⟩ := s
  rcases h with rfl | rfl <;> cases ph <;> rfl

theorem globalStep_nav_dialogVisible (s : App) (a : Action)
    (hv : s.merge_dialog.visible = true)
    (h : a = .NextPhase ∨ a = .PrevPhase) :
    s.globalStep a = (s, []) := by
  obtain ⟨ph, q, c, ud, pi, re, tc, vb, bd, md, sb, hp⟩ := s
  obtain ⟨mv, mav, mia, mib, mba, mbb, mf, mm⟩ := md
  simp only [App.merge_dialog] at hv
  subst hv
  rcases h with rfl | rfl <;> cases ph <;>
    (unfold App.globalStep App.current_input_mode
     simp [Phase.next, Phase.prev])

theorem handle_actionF_succ (fuel : Nat) (s0 : App) (a : Action)
    (h : ¬a = .Quit) :
    App.handle_actionF (fuel + 1) s0 a = (do
      let g := s0.globalStep a
      let fwd ← g.1.forwardStep a
      let s5 ← fwd.1.overlayStep a
      let adv := s5.autoAdvanceStep a
      let ec ← (if adv.1.technique_cards.extracting && a.isExtractTerminal then
          if 0 < adv.1.technique_cards.progress.2
              ∧ adv.1.technique_cards.progress.2
                ≤ adv.1.technique_cards.progress.1 then
            App.handle_actionF fuel adv.1 .ExtractionComplete
          else pure (adv.1, [], [])
        else pure (adv.1, [], []))
      let gc ← (if ec.1.variant_builder.generating && a.isGenTerminal then
          if ec.1.variant_builder.variants.all (fun v => v.status.isSettled) then
            App.handle_actionF fuel ec.1 .GenerationComplete
          else pure (ec.1, [], [])
        else pure (ec.1, [], []))
      let ch ← (match fwd.2 with
        | some ca => App.handle_actionF fuel gc.1 ca
        | none => pure (gc.1, [], []))
      Except.ok (ch.1, g.2 ++ adv.2 ++ ec.2.1 ++ gc.2.1 ++ ch.2.1,
        a :: (ec.2.2 ++ gc.2.2 ++ ch.2.2))) := by
  rw [App.handle_actionF]
  simp only [if_neg h]

theorem handle_actionF_simple (fuel : Nat) (s0 : App) (a : Action)
    (hq : ¬a = .Quit)
    (hterm : a.isExtractTerminal = false)
    (hgen : a.isGenTerminal = false)
    {s1 : App} {em : List Emit} (hg : s0.globalStep a = (s1, em))
    {s2 : App} (hfwd : s1.forwardStep a = .ok (s2, none))
    {s3 : App} (hov : s2.overlayStep a = .ok s3)
    {s4 : App} {em2 : List Emit} (hadv : s3.autoAdvanceStep a = (s4, em2)) :
    App.handle_actionF (fuel + 1) s0 a = .ok (s4, em ++ em2, [a]) := by
  rw [handle_actionF_succ fuel s0 a hq]
  simp [hg, hfwd, hov, hadv, exceptBind_ok, exceptPure_eq, hterm, hgen]

theorem handle_actionF_chain (fuel : Nat) (s0 : App) (a : Action)
    (hq : ¬a = .Quit)
    (hterm : a.isExtractTerminal = false)
    (hgen : a.isGenTerminal = false)
    {s1 : App} {em : List Emit} (hg : s0.globalStep a = (s1, em))
    {s2 : App} {ca : Action} (hfwd : s1.forwardStep a = .ok (s2, some ca))
    {s3 : App} (hov : s2.overlayStep a = .ok s3)
    {s4 : App} {em2 : List Emit} (hadv : s3.autoAdvanceStep a = (s4, em2))
    {s5 : App} {em3 : List Emit} {tr3 : List Action}
    (hrec : App.handle_actionF fuel s4 ca = .ok (s5, em3, tr3)) :
    App.handle_actionF (fuel + 1) s0 a = .ok (s5, em ++ em2 ++ em3, a :: tr3) := by
  rw [handle_actionF_succ fuel s0 a hq]
  simp [hg, hfwd, hov, hadv, hrec, exceptBind_ok, exceptPure_eq, hterm, hgen]

theorem handle_actionF_extractFire (fuel : Nat) (s0 : App) (a : Action)
    (hq : ¬a = .Quit)
    (hterm : a.isExtractTerminal = true)
    (hgen : a.isGenTerminal = false)
    {s1 : App} {em : List Emit} (hg : s0.globalStep a = (s1, em))
    {s2 : App} (hfwd : s1.forwardStep a = .ok (s2, none))
    {s3 : App} (hov : s2.overlayStep a = .ok s3)
    {s4 : App} {em2 : List Emit} (hadv : s3.autoAdvanceStep a = (s4, em2))
    (hext : s4.technique_cards.extracting = true)
    (hcnt : 0 < s4.technique_cards.progress.2
      ∧ s4.technique_cards.progress.2 ≤ s4.technique_cards.progress.1)
    {s5 : App} {em3 : List Emit} {tr3 : List Action}
    (hrec : App.handle_actionF fuel s4 .ExtractionComplete = .ok (s5, em3, tr3)) :
    App.handle_actionF (fuel + 1) s0 a
      = .ok (s5, em ++ em2 ++ em3, a :: tr3) := by
  rw [handle_actionF_succ fuel s0 a hq]
  simp [hg, hfwd, hov, hadv, hext, hcnt, hrec, exceptBind_ok, exceptPure_eq,
    hterm, hgen]

theorem handle_actionF_extractNoFire (fuel : Nat) (s0 : App) (a : Action)
    (hq : ¬a = .Quit)
    (hterm : a.isExtractTerminal = true)
    (hgen : a.isGenTerminal = false)
    {s1 : App} {em : List Emit} (hg : s0.globalStep a = (s1, em))
    {s2 : App} (hfwd : s1.forwardStep a = .ok (s2, none))
    {s3 : App} (hov : s2.overlayStep a = .ok s3)
    {s4 : App} {em2 : List Emit} (hadv : s3.autoAdvanceStep a = (s4, em2))
    (hcnt : ¬(0 < s4.technique_cards.progress.2
      ∧ s4.technique_cards.progress.2 ≤ s4.technique_cards.progress.1)) :
    App.handle_actionF (fuel + 1) s0 a = .ok (s4, em ++ em2, [a]) := by
  rw [handle_actionF_succ fuel s0 a hq]
  by_cases hx : s4.technique_cards.extracting = true
  · simp [hg, hfwd, hov, hadv, hx, hcnt, exceptBind_ok, exceptPure_eq, hterm,
      hgen]
  · simp only [Bool.not_eq_true] at hx
    simp [hg, hfwd, hov, hadv, hx, exceptBind_ok, exceptPure_eq, hterm, hgen]

theorem handle_actionF_genFire (fuel : Nat) (s0 : App) (a : Action)
    (hq : ¬a = .Quit)
    (hterm : a.isExtractTerminal = false)
    (hgen : a.isGenTerminal = true)
    {s1 : App} {em : List Emit} (hg : s0.globalStep a = (s1, em))
    {s2 : App} (hfwd : s1.forwardStep a = .ok (s2, none))
    {s3 : App} (hov : s2.overlayStep a = .ok s3)
    {s4 : App} {em2 : List Emit} (hadv : s3.autoAdvanceStep a = (s4, em2))
    (hgon : s4.variant_builder.generating = true)
    (hall : s4.variant_builder.variants.all (fun v => v.status.isSettled) = true)
    {s5 : App} {em3 : List Emit} {tr3 : List Action}
    (hrec : App.handle_actionF fuel s4 .GenerationComplete = .ok (s5, em3, tr3)) :
    App.handle_actionF (fuel + 1) s0 a
      = .ok (s5, em ++ em2 ++ em3, a :: tr3) := by
  rw [handle_actionF_succ fuel s0 a hq]
  simp [hg, hfwd, hov, hadv, hgon, hall, hrec, exceptBind_ok, exceptPure_eq,
    hterm, hgen, -List.all_eq_true]

theorem handle_actionF_genNoFire (fuel : Nat) (s0 : App) (a : Action)
    (hq : ¬a = .Quit)
    (hterm : a.isExtractTerminal = false)
    (hgen : a.isGenTerminal = true)
    {s1 : App} {em : List Emit} (hg : s0.globalStep a = (s1, em))
    {s2 : App} (hfwd : s1.forwardStep a = .ok (s2, none))
    {s3 : App} (hov : s2.overlayStep a = .ok s3)
    {s4 : App} {em2 : List Emit} (hadv : s3.autoAdvanceStep a = (s4, em2))
    (hall : s4.variant_builder.variants.all (fun v => v.status.isSettled)
      = false) :
    App.handle_actionF (fuel + 1) s0 a = .ok (s4, em ++ em2, [a]) := by
  rw [handle_actionF_succ fuel s0 a hq]
  by_cases hx : s4.variant_builder.generating = true
  · simp [hg, hfwd, hov, hadv, hx, hall, exceptBind_ok, exceptPure_eq, hterm,
      hgen, -List.all_eq_true]
  · simp only [Bool.not_eq_true] at hx
    simp [hg, hfwd, hov, hadv, hx, exceptBind_ok, exceptPure_eq, hterm, hgen]

theorem exceptBind_err {α β : Type} (e : Crash) (f : α → Except Crash β) :
    ((Except.error e : Except Crash α) >>= f) = .error e := rfl

theorem insertByM_total (x : TechniqueCard) (l : List TechniqueCard)
    (hx : ∃ q, x.relevance_score = FVal.val q)
    (hl : ∀ y ∈ l, ∃ q, y.relevance_score = FVal.val q) :
    ∃ l2, insertByM techniqueCmp x l = .ok l2 ∧ ∀ z ∈ l2, z ∈ x :: l := by
  induction l with
  | nil => exact ⟨[x], rfl, by simp⟩
  | cons y ys ih =>
    obtain ⟨qx, hqx⟩ := hx
    obtain ⟨qy, hqy⟩ := hl y (List.mem_cons_self y ys)
    have ho : techniqueCmp x y
        = .ok (if qy < qx then .lt else if qx < qy then .gt else .eq) := by
      unfold techniqueCmp FVal.partial_cmp optionUnwrap
      rw [hqy, hqx]
    obtain ⟨l2, hl2, hmem⟩ := ih (fun z hz => hl z (List.mem_cons_of_mem _ hz))
    by_cases h1 : qy < qx
    · refine ⟨x :: y :: ys, ?_, fun z hz => hz⟩
      unfold insertByM
      rw [ho]
      simp [h1, exceptBind_ok]
    · by_cases h2 : qx < qy
      · refine ⟨y :: l2, ?_, ?_⟩
        · unfold insertByM
          rw [ho]
          simp only [h1, h2, if_false, if_true, exceptBind_ok, hl2]
        · intro z hz
          rcases List.mem_cons.1 hz with rfl | hz2
          · exact List.mem_cons_of_mem _ (List.mem_cons_self _ _)
          · rcases List.mem_cons.1 (hmem z hz2) with rfl | hz3
            · exact List.mem_cons_self _ _
            · exact List.mem_cons_of_mem _ (List.mem_cons_of_mem _ hz3)
      · refine ⟨x :: y :: ys, ?_, fun z hz => hz⟩
        unfold insertByM
        rw [ho]
        simp [h1, h2, exceptBind_ok]

theorem sortByM_total (l : List TechniqueCard)
    (hl : ∀ y ∈ l, ∃ q, y.relevance_score = FVal.val q) :
    ∃ l2, sortByM techniqueCmp l = .ok l2 ∧ ∀ z ∈ l2, z ∈ l := by
  induction l with
  | nil => exact ⟨[], rfl, by simp⟩
  | cons x xs ih =>
    obtain ⟨l2, hl2, hmem⟩ := ih (fun z hz => hl z (List.mem_cons_of_mem _ hz))
    obtain ⟨l3, hl3, hmem3⟩ := insertByM_total x l2
      (hl x (List.mem_cons_self x xs))
      (fun z hz => hl z (List.mem_cons_of_mem _ (hmem z hz)))
    refine ⟨l3, ?_, ?_⟩
    · unfold sortByM
      rw [hl2]
      simp only [exceptBind_ok]
      exact hl3
    · intro z hz
      rcases List.mem_cons.1 (hmem3 z hz) with rfl | hz2
      · exact List.mem_cons_self _ _
      · exact List.mem_cons_of_mem _ (hmem z hz2)

theorem tcHandle_extractionFailed (c : TechniqueCardsComponent)
    (pid err : String) :
    c.handle_action (.TechniqueExtractionFailed pid err) = .ok
      ({ c with
          progress := (c.progress.1 + 1, c.progress.2)
          active_papers := c.active_papers.filter
            (fun t => !strContains pid t && !strContains t pid)
          errors := c.errors ++ [(pid, err)] }, none) := rfl

theorem tcHandle_extracted (c : TechniqueCardsComponent) (card : TechniqueCard)
    {l : List TechniqueCard}
    (hs : sortByM techniqueCmp (c.techniques ++ [card]) = .ok l) :
    c.handle_action (.TechniqueExtracted card) = .ok
      ({ c with
          progress := (c.progress.1 + 1, c.progress.2)
          active_papers := c.active_papers.filter
            (fun t => !(t = card.paper_title))
          techniques := l }, none) := by
  unfold TechniqueCardsComponent.handle_action
  simp [hs, exceptBind_ok]

theorem tcHandle_extracted_err (c : TechniqueCardsComponent)
    (card : TechniqueCard) {e : Crash}
    (hs : sortByM techniqueCmp (c.techniques ++ [card]) = .error e) :
    c.handle_action (.TechniqueExtracted card) = .error e := by
  unfold TechniqueCardsComponent.handle_action
  simp [hs, exceptBind_err]

theorem tcHandle_extractionComplete (c : TechniqueCardsComponent) :
    c.handle_action .ExtractionComplete = .ok
      ({ c with
          extracting := false
          active_papers := []
          current_paper := ""
          techniques := listMapIdxFrom
            (fun i t => { t with selected := i < 10 }) 0 c.techniques },
        some (.SetStatus ("Extracted "
          ++ toString (listMapIdxFrom
              (fun i t => { t with selected := i < 10 }) 0 c.techniques).length
          ++ " techniques. Select and press [Right] to generate variants."))) :=
  rfl

theorem forwardStep_tcEq (s : App) (a : Action)
    (hph : s.current_phase = .TechniqueSelection)
    {p : TechniqueCardsComponent × Option Action}
    (hr : s.technique_cards.handle_action a = .ok p) :
    s.forwardStep a = .ok ({ s with technique_cards := p.1 }, p.2) := by
  obtain ⟨ph, q, c, ud, pi, re, tc, vb, bd, md, sb, hp⟩ := s
  simp only [App.current_phase] at hph
  subst hph
  simp only [App.technique_cards] at hr
  simp only [App.forwardStep, hr, exceptBind_ok]
  rfl

theorem forwardStep_tcErr (s : App) (a : Action)
    (hph : s.current_phase = .TechniqueSelection) {e : Crash}
    (hr : s.technique_cards.handle_action a = .error e) :
    s.forwardStep a = .error e := by
  obtain ⟨ph, q, c, ud, pi, re, tc, vb, bd, md, sb, hp⟩ := s
  simp only [App.current_phase] at hph
  subst hph
  simp only [App.technique_cards] at hr
  simp only [App.forwardStep, hr, exceptBind_err]

theorem forwardStep_vbEq (s : App) (a : Action)
    (hph : s.current_phase = .VariantGeneration)
    {p : VariantBuilderComponent × Option Action}
    (hr : s.variant_builder.handle_action a = .ok p) :
    s.forwardStep a = .ok ({ s with variant_builder := p.1 }, p.2) := by
  obtain ⟨ph, q, c, ud, pi, re, tc, vb, bd, md, sb, hp⟩ := s
  simp only [App.current_phase] at hph
  subst hph
  simp only [App.variant_builder] at hr
  simp only [App.forwardStep, hr, exceptBind_ok]
  rfl

theorem handle_actionF_fwdErr (fuel : Nat) (s0 : App) (a : Action)
    (hq : ¬a = .Quit)
    {s1 : App} {em : List Emit} (hg : s0.globalStep a = (s1, em))
    {e : Crash} (hfwd : s1.forwardStep a = .error e) :
    App.handle_actionF (fuel + 1) s0 a = .error e := by
  rw [handle_actionF_succ fuel s0 a hq]
  simp [hg, hfwd, exceptBind_err]

theorem listMapIdxFrom_score (l : List TechniqueCard) (i : Nat) :
    ∀ z ∈ listMapIdxFrom (fun i t => { t with selected := i < 10 }) i l,
      ∃ x ∈ l, z.relevance_score = x.relevance_score := by
  induction l generalizing i with
  | nil => intro z hz; cases hz
  | cons x xs ih =>
    intro z hz
    rcases List.mem_cons.1 hz with rfl | hz2
    · exact ⟨x, List.mem_cons_self x xs, rfl⟩
    · obtain ⟨w, hw, hwq⟩ := ih (i + 1) z hz2
      exact ⟨w, List.mem_cons_of_mem _ hw, hwq⟩

theorem extractTerminal_ne_quit {a : Action}
    (h : a.isExtractTerminal = true) : ¬a = .Quit := by
  intro hq
  subst hq
  simp [Action.isExtractTerminal] at h

theorem extractTerminal_ne_confirm {a : Action}
    (h : a.isExtractTerminal = true) : ¬a = .Confirm := by
  intro hq
  subst hq
  simp [Action.isExtractTerminal] at h

theorem extractTerminal_not_gen {a : Action}
    (h : a.isExtractTerminal = true) : a.isGenTerminal = false := by
  cases a <;> simp_all [Action.isExtractTerminal, Action.isGenTerminal]

theorem genTerminal_ne_quit {a : Action}
    (h : a.isGenTerminal = true) : ¬a = .Quit := by
  intro hq
  subst hq
  simp [Action.isGenTerminal] at h

theorem genTerminal_ne_confirm {a : Action}
    (h : a.isGenTerminal = true) : ¬a = .Confirm := by
  intro hq
  subst hq
  simp [Action.isGenTerminal] at h

theorem genTerminal_not_extract {a : Action}
    (h : a.isGenTerminal = true) : a.isExtractTerminal = false := by
  cases a <;> simp_all [Action.isExtractTerminal, Action.isGenTerminal]

theorem autoAdvance_noop (s : App) (a : Action)
    (h : (match a with | Action.ProjectAnalyzed _ => true | _ => false)
      = false) :
    s.autoAdvanceStep a = (s, []) := by
  unfold App.autoAdvanceStep
  simp [h]

theorem forwardStep_setStatus (s : App) (msg : String) :
    s.forwardStep (.SetStatus msg) = .ok (s, none) := by
  obtain ⟨ph, q, c, ud, pi, re, tc, vb, bd, md, sb, hp⟩ := s
  cases ph <;> rfl

theorem extractTerminal_cases {a : Action}
    (h : a.isExtractTerminal = true) :
    (∃ card, a = .TechniqueExtracted card) ∨
    (∃ pid err, a = .TechniqueExtractionFailed pid err) := by
  cases a <;>
    first
      | exact Or.inl ⟨_, rfl⟩
      | exact Or.inr ⟨_, _, rfl⟩
      | simp_all [Action.isExtractTerminal]

theorem dispatch_setStatus_ok (fuel : Nat) (t : App) (msg : String) :
    ∃ t2, App.handle_actionF (fuel + 1) t (.SetStatus msg)
      = .ok (t2, [], [.SetStatus msg]) ∧
      t2.current_phase = t.current_phase ∧
      t2.should_quit = t.should_quit ∧
      t2.technique_cards = t.technique_cards ∧
      t2.variant_builder = t.variant_builder := by
  obtain ⟨md, hmd⟩ := mergeHandle_isOk t.merge_dialog (.SetStatus msg)
    (by simp)
  obtain ⟨hpp, hhp⟩ := helpHandle_isOk t.help (.SetStatus msg)
  obtain ⟨sb, hsb⟩ := statusBarHandle_isOk t.status_bar (.SetStatus msg)
  exact ⟨_, handle_actionF_simple fuel t (.SetStatus msg) (by simp) rfl rfl
    rfl (forwardStep_setStatus t msg) (overlayStep_eq t _ hmd hhp hsb) rfl,
    rfl, rfl, rfl, rfl⟩

theorem dispatch_extractionComplete_ok (fuel : Nat) (t : App)
    (hph : t.current_phase = .TechniqueSelection) :
    ∃ t2 msg, App.handle_actionF (fuel + 2) t .ExtractionComplete
      = .ok (t2, [], [.ExtractionComplete, .SetStatus msg]) ∧
      t2.current_phase = t.current_phase ∧
      t2.should_quit = t.should_quit ∧
      t2.technique_cards.extracting = false ∧
      t2.technique_cards.progress = t.technique_cards.progress ∧
      (∀ c ∈ t2.technique_cards.techniques,
        ∃ x ∈ t.technique_cards.techniques,
          c.relevance_score = x.relevance_score) ∧
      t2.variant_builder = t.variant_builder := by
  have htc := tcHandle_extractionComplete t.technique_cards
  have hfwd := forwardStep_tcEq t .ExtractionComplete hph htc
  obtain ⟨md, hmd⟩ := mergeHandle_isOk
    ({ t with technique_cards := { t.technique_cards with
        extracting := false
        active_papers := []
        current_paper := ""
        techniques := listMapIdxFrom
          (fun i t => { t with selected := i < 10 }) 0
          t.technique_cards.techniques } } : App).merge_dialog
    .ExtractionComplete (by simp)
  obtain ⟨hpp, hhp⟩ := helpHandle_isOk
    ({ t with technique_cards := { t.technique_cards with
        extracting := false
        active_papers := []
        current_paper := ""
        techniques := listMapIdxFrom
          (fun i t => { t with selected := i < 10 }) 0
          t.technique_cards.techniques } } : App).help .ExtractionComplete
  obtain ⟨sb, hsb⟩ := statusBarHandle_isOk
    ({ t with technique_cards := { t.technique_cards with
        extracting := false
        active_papers := []
        current_paper := ""
        techniques := listMapIdxFrom
          (fun i t => { t with selected := i < 10 }) 0
          t.technique_cards.techniques } } : App).status_bar
    .ExtractionComplete
  have hov := overlayStep_eq _ .ExtractionComplete hmd hhp hsb
  obtain ⟨t3, hS, hSph, hSq, hStc, hSvb⟩ := dispatch_setStatus_ok fuel
    ({ t with
      technique_cards := { t.technique_cards with
        extracting := false
        active_papers := []
        current_paper := ""
        techniques := listMapIdxFrom
          (fun i t => { t with selected := i < 10 }) 0
          t.technique_cards.techniques }
      merge_dialog := md
      help := hpp
      status_bar := sb } : App)
    ("Extracted "
      ++ toString (listMapIdxFrom
          (fun i t => { t with selected := i < 10 }) 0
          t.technique_cards.techniques).length
      ++ " techniques. Select and press [Right] to generate variants.")
  have hchain := handle_actionF_chain (fuel + 1) t .ExtractionComplete
    (by simp) rfl rfl rfl hfwd hov rfl hS
  refine ⟨t3, _, hchain, hSph, hSq, ?_, ?_, ?_, hSvb⟩
  · rw [hStc]
  · rw [hStc]
  · intro c hc
    rw [hStc] at hc
    exact listMapIdxFrom_score _ 0 c hc

theorem extract_report_step (s : App) (a : Action)
    (ha : a.isExtractTerminal = true)
    (hph : s.current_phase = .TechniqueSelection)
    (hqt : s.should_quit = false)
    (hex : s.technique_cards.extracting = true)
    (hscores : ∀ c ∈ s.technique_cards.techniques,
      ∃ q, c.relevance_score = FVal.val q)
    (hcard : ∀ card, a = .TechniqueExtracted card →
      ∃ q, card.relevance_score = FVal.val q) :
    ∃ r, App.dispatch s a = .ok r ∧
      r.1.current_phase = .TechniqueSelection ∧
      r.1.should_quit = false ∧
      r.1.technique_cards.progress
        = (s.technique_cards.progress.1 + 1, s.technique_cards.progress.2) ∧
      (∀ c ∈ r.1.technique_cards.techniques,
        ∃ q, c.relevance_score = FVal.val q) ∧
      (if 0 < s.technique_cards.progress.2
          ∧ s.technique_cards.progress.2 ≤ s.technique_cards.progress.1 + 1
       then r.2.2.count Action.ExtractionComplete = 1
         ∧ r.1.technique_cards.extracting = false
       else r.2.2.count Action.ExtractionComplete = 0
         ∧ r.1.technique_cards.extracting = true) := by
  have main : ∀ (tc2 : TechniqueCardsComponent),
      s.technique_cards.handle_action a = .ok (tc2, none) →
      tc2.extracting = s.technique_cards.extracting →
      tc2.progress = (s.technique_cards.progress.1 + 1,
        s.technique_cards.progress.2) →
      (∀ c ∈ tc2.techniques, ∃ q, c.relevance_score = FVal.val q) →
      s.globalStep a = (s, []) →
      (∀ t : App, t.autoAdvanceStep a = (t, [])) →
      (a == Action.ExtractionComplete) = false →
      (Action.ExtractionComplete == a) = false →
      ∃ r, App.dispatch s a = .ok r ∧
        r.1.current_phase = .TechniqueSelection ∧
        r.1.should_quit = false ∧
        r.1.technique_cards.progress
          = (s.technique_cards.progress.1 + 1, s.technique_cards.progress.2) ∧
        (∀ c ∈ r.1.technique_cards.techniques,
          ∃ q, c.relevance_score = FVal.val q) ∧
        (if 0 < s.technique_cards.progress.2
            ∧ s.technique_cards.progress.2 ≤ s.technique_cards.progress.1 + 1
         then r.2.2.count Action.ExtractionComplete = 1
           ∧ r.1.technique_cards.extracting = false
         else r.2.2.count Action.ExtractionComplete = 0
           ∧ r.1.technique_cards.extracting = true) := by
    intro tc2 htc htcex htcpr htcsc hgg hpa hbeq hbeq2
    have hfwd := forwardStep_tcEq s a hph htc
    obtain ⟨md2, hmd⟩ := mergeHandle_isOk
      ({ s with technique_cards := tc2 } : App).merge_dialog a
      (extractTerminal_ne_confirm ha)
    obtain ⟨hp2, hhp⟩ := helpHandle_isOk
      ({ s with technique_cards := tc2 } : App).help a
    obtain ⟨sb2, hsb⟩ := statusBarHandle_isOk
      ({ s with technique_cards := tc2 } : App).status_bar a
    have hov := overlayStep_eq _ a hmd hhp hsb
    by_cases hcnt : 0 < s.technique_cards.progress.2
        ∧ s.technique_cards.progress.2 ≤ s.technique_cards.progress.1 + 1
    · obtain ⟨t2, msg, hE, hEph, hEq, hEex, hEpr, hEsc, hEvb⟩ :=
        dispatch_extractionComplete_ok 1
        ({ s with
          technique_cards := tc2
          merge_dialog := md2
          help := hp2
          status_bar := sb2 } : App) hph
      have hfire := handle_actionF_extractFire 3 s a
        (extractTerminal_ne_quit ha) ha (extractTerminal_not_gen ha)
        hgg hfwd hov (hpa _) (htcex.trans hex)
        (show 0 < tc2.progress.2 ∧ tc2.progress.2 ≤ tc2.progress.1 by
          rw [htcpr]
          exact hcnt) hE
      refine ⟨_, hfire, hEph.trans hph, ?_, ?_, ?_, ?_⟩
      · rw [hEq]
        exact hqt
      · rw [hEpr]
        exact htcpr
      · intro c hc
        obtain ⟨x, hx, hxq⟩ := hEsc c hc
        obtain ⟨q, hq⟩ := htcsc x hx
        exact ⟨q, hxq ▸ hq⟩
      · rw [if_pos hcnt]
        refine ⟨?_, hEex⟩
        simp [List.count_cons, hbeq, hbeq2]
    · have hnof := handle_actionF_extractNoFire 3 s a
        (extractTerminal_ne_quit ha) ha (extractTerminal_not_gen ha)
        hgg hfwd hov (hpa _)
        (show ¬(0 < tc2.progress.2 ∧ tc2.progress.2 ≤ tc2.progress.1) by
          rw [htcpr]
          exact hcnt)
      refine ⟨_, hnof, hph, hqt, htcpr, htcsc, ?_⟩
      rw [if_neg hcnt]
      refine ⟨?_, htcex.trans hex⟩
      simp [List.count_cons, hbeq, hbeq2]
  rcases extractTerminal_cases ha with ⟨card, rfl⟩ | ⟨pid, err, rfl⟩
  · obtain ⟨qc, hqc⟩ := hcard card rfl
    obtain ⟨lsorted, hsort, hmemS⟩ := sortByM_total
      (s.technique_cards.techniques ++ [card]) (by
        intro y hy
        rcases List.mem_append.1 hy with hy1 | hy2
        · exact hscores y hy1
        · rw [List.mem_singleton.1 hy2]
          exact ⟨qc, hqc⟩)
    refine main _ (tcHandle_extracted s.technique_cards card hsort) rfl rfl
      ?_ rfl (fun t => rfl) rfl rfl
    intro z hz
    rcases List.mem_append.1 (hmemS z hz) with hz1 | hz2
    · exact hscores z hz1
    · rw [List.mem_singleton.1 hz2]
      exact ⟨qc, hqc⟩
  · exact main _ (tcHandle_extractionFailed s.technique_cards pid err)
      rfl rfl hscores rfl (fun t => rfl) rfl rfl

theorem extract_run_aux (reports : List Action) :
    ∀ (k N : Nat) (s : App),
    reports ≠ [] →
    k + reports.length = N →
    (∀ a ∈ reports, a.isExtractTerminal = true) →
    (∀ a ∈ reports, ∀ card, a = .TechniqueExtracted card →
      ∃ q, card.relevance_score = FVal.val q) →
    s.current_phase = .TechniqueSelection →
    s.should_quit = false →
    s.technique_cards.extracting = true →
    s.technique_cards.progress = (k, N) →
    (∀ c ∈ s.technique_cards.techniques,
      ∃ q, c.relevance_score = FVal.val q) →
    ∃ r, App.runActions s reports = .ok r ∧
      r.2.2.count Action.ExtractionComplete = 1 ∧
      r.1.technique_cards.extracting = false := by
  induction reports with
  | nil =>
    intro k N s hne
    exact absurd rfl hne
  | cons a rest ih =>
    intro k N s hne hlen hterm hsc hph hqt hex hpr hscores
    obtain ⟨r1, hd, hph1, hqt1, hpr1, hscores1, hcond⟩ :=
      extract_report_step s a (hterm a (List.mem_cons_self a rest)) hph hqt
        hex hscores
        (fun card hc => hsc a (List.mem_cons_self a rest) card hc)
    rw [hpr] at hpr1 hcond
    cases rest with
    | nil =>
      have hcnt : 0 < (k, N).2 ∧ (k, N).2 ≤ (k, N).1 + 1 := by
        simp only [List.length_cons, List.length_nil] at hlen
        constructor
        · show 0 < N
          omega
        · show N ≤ k + 1
          omega
      rw [if_pos hcnt] at hcond
      refine ⟨(r1.1, r1.2.1 ++ [], r1.2.2 ++ []), ?_, ?_, hcond.2⟩
      · unfold App.runActions
        simp only [hd, exceptBind_ok, hqt1, Bool.false_eq_true, if_false]
        rfl
      · simp only [List.count_append, List.count_nil, Nat.add_zero]
        exact hcond.1
    | cons b rest2 =>
      have hnocnt : ¬(0 < (k, N).2 ∧ (k, N).2 ≤ (k, N).1 + 1) := by
        simp only [List.length_cons] at hlen
        intro hc
        have h1 : N ≤ k + 1 := hc.2
        omega
      rw [if_neg hnocnt] at hcond
      obtain ⟨r2, hrun2, hcnt2, hex2⟩ := ih (k + 1) N r1.1
        (by simp)
        (by simp only [List.length_cons] at hlen ⊢; omega)
        (fun x hx => hterm x (List.mem_cons_of_mem _ hx))
        (fun x hx card hc => hsc x (List.mem_cons_of_mem _ hx) card hc)
        hph1 hqt1 hcond.2 hpr1 hscores1
      refine ⟨(r2.1, r1.2.1 ++ r2.2.1, r1.2.2 ++ r2.2.2), ?_, ?_, hex2⟩
      · unfold App.runActions
        simp only [hd, exceptBind_ok, hqt1, Bool.false_eq_true, if_false,
          hrun2]
      · simp only [List.count_append]
        rw [hcond.1, hcnt2]

/-- C9: `BlendRatio`'s `next` and `prev` step ordinally and saturate at the
ends rather than wrapping: `next(Full) == Full`, `prev(Zero) == Zero`,
applying `next` four times from `Zero` reaches `Full`, and
`next(prev(x)) == x` for every `x != Zero`. -/
theorem blendRatio_saturating_steps :
    BlendRatio.next .Full = .Full ∧
    BlendRatio.prev .Zero = .Zero ∧
    BlendRatio.next (.next (.next (.next .Zero))) = .Full ∧
    ∀ x : BlendRatio, x ≠ .Zero → x.prev.next = x := by
  refine ⟨rfl, rfl, rfl, ?_⟩
  intro x hx
  cases x
  · exact absurd rfl hx
  all_goals rfl

/-- Witness for C9: the quantified conjunct applied at `Quarter`. -/
theorem blendRatio_saturating_steps_witness :
    BlendRatio.Quarter ≠ .Zero ∧ BlendRatio.Quarter.prev.next = .Quarter :=
  ⟨by decide, blendRatio_saturating_steps.2.2.2 .Quarter (by decide)⟩

/-- C4 (code evaluation at the failing input): with the merge dialog's
blend slider focused and `blend_a = Half`, pressing Right (`NextPhase`)
steps `blend_a` to `ThreeQuarter` but sets the paired value `blend_b` to
`blend_a.next().prev() = Half` — not the ordinal-inverse `Quarter` that the
spec's scenario (and the code's own `// Inverse` comment) call for. -/
theorem merge_dialog_pairs_prev_not_ordinal_inverse :
    (MergeDialogComponent.handle_action
        { MergeDialogComponent.new with
            visible := true, focused := .BlendSlider,
            blend_a := .Half, blend_b := .Half }
        .NextPhase
      |>.toOption.map (fun r => (r.1.blend_a, r.1.blend_b)))
      = some (.ThreeQuarter, .Half) ∧
    BlendRatio.spec_ordinal_inverse .ThreeQuarter = .Quarter ∧
    BlendRatio.Half ≠ .Quarter := by
  decide

/-- C8: a lineage tree built via `attach`/`merge` operations, when
flattened to its leaves, recovers exactly the (technique, paper) pairs it
was built from — no duplication, no loss (list-level round trip, which is
stronger than multiset equality). -/
theorem lineage_leaves_roundtrip (b : LineageBuild) :
    b.interp.leaves = b.attachedPairs := by
  induction b with
  | attach v t p => rfl
  | mergeB v ba bb x y ihx ihy =>
    simp [LineageBuild.interp, LineageNode.mergeNodes, LineageNode.leaves,
      LineageBuild.attachedPairs, ihx, ihy]

/-- C3 counterexample: when the graceful HTTP shutdown request fails on a
live child, the grace delay (step (b)) IS skipped — the trace goes straight
from the failed request to the status check — contradicting "a failure of
the graceful request in step (a) does not skip step (b)". -/
theorem shutdown_failed_request_skips_grace_delay :
    ShutdownEffect.graceSleep ∉
      SidecarManager.shutdownTrace true ⟨false, .stillRunning⟩ ∧
    SidecarManager.shutdownTrace true ⟨false, .stillRunning⟩ =
      [.gracefulRequest, .statusCheck, .kill] := by
  decide

/-- C3 amended: on a live child, `shutdown()` always issues the graceful
request and then the status check (in that order), kills exactly when the
status check reports the child still running, and takes the grace delay
exactly when the graceful request succeeded — a failed request skips the
delay but never the status/kill step. -/
theorem shutdown_sequence_on_live_child (env : ShutdownEnv) :
    ShutdownEffect.gracefulRequest ∈ SidecarManager.shutdownTrace true env ∧
    ShutdownEffect.statusCheck ∈ SidecarManager.shutdownTrace true env ∧
    (ShutdownEffect.kill ∈ SidecarManager.shutdownTrace true env ↔
      env.tryWait = .stillRunning) ∧
    (ShutdownEffect.graceSleep ∈ SidecarManager.shutdownTrace true env ↔
      env.requestOk = true) ∧
    (SidecarManager.shutdownTrace true env).indexOf .gracefulRequest <
      (SidecarManager.shutdownTrace true env).indexOf .statusCheck := by
  obtain ⟨rq, tw⟩ := env
  cases rq <;> cases tw <;> decide

/-- C7 (code evaluation at the failing input): dispatching a
`TechniqueExtracted` action whose card carries a NaN `relevance_score`, to a
state already holding one extracted technique, panics inside the reducer —
`sort_by(|a, b| b.relevance_score.partial_cmp(&a.relevance_score).unwrap())`
unwraps the `None` that `partial_cmp` returns for NaN — instead of surfacing
the malformed response as a typed failure. -/
theorem dispatch_panics_on_nan_relevance_score :
    App.dispatch
      { App.new with
          current_phase := .TechniqueSelection
          technique_cards := { TechniqueCardsComponent.new with
            techniques := [mkCard "t1" "p1" (.val 1)]
            extracting := true
            progress := (0, 2) } }
      (.TechniqueExtracted (mkCard "t2" "p2" .nan))
      = .error (.panicked "called Option::unwrap on a None value") := by
  rfl

/-- C1 counterexample: the extraction job's completion is decided by the
`(done, total)` counter, not by recomputing "are all tracked units
terminal?" over the live collection.  Concretely: in a state extracting 2
papers with `progress = (1, 2)` where the single terminal record so far is
a failure for paper `p1`, dispatching a duplicate terminal failure for the
same paper `p1` pushes the counter to `2 ≥ 2` and synthesizes
`ExtractionComplete`, although only one distinct tracked unit has ever
reported (the live collection holds failures for `p1` only, and no
technique cards) — so the completion action fires while a tracked unit is
still outstanding, refuting "the counter is never the oracle". -/
theorem extraction_complete_follows_counter_not_collection :
    ((App.dispatch
        { App.new with
            current_phase := .TechniqueSelection
            technique_cards := { TechniqueCardsComponent.new with
              extracting := true
              progress := (1, 2)
              errors := [("p1", "e")] } }
        (.TechniqueExtractionFailed "p1" "e")).toOption.map
      (fun r =>
        (r.2.2.count Action.ExtractionComplete,
          ((r.1.technique_cards.errors.map Prod.fst).dedup.length,
            r.1.technique_cards.techniques.length,
            r.1.technique_cards.progress.2))))
      = some (1, 1, 0, 2) ∧ (1 : Nat) < 2 := by
  exact ⟨by rfl, by decide⟩

/-- C5 counterexample: only the TechniqueSelection phase has an
attempted-flag; the ResearchDiscovery auto-trigger re-fires when the phase
is revisited after its first episode finished.  Concretely: with an
analyzed project and a sidecar client, the run
`GoTo(Research), StartResearch, ResearchComplete, GoTo(Intake),
GoTo(Research)` emits the `StartResearch` start-job action twice — the
revisit re-triggers, which the claim says the attempted-flag prevents. -/
theorem research_auto_trigger_refires_on_revisit :
    ((App.runActions
        { App.new with
            sidecar_client := true
            project_intake := { ProjectIntakeComponent.new with
              profile := some ⟨[], 0, "s", "/p"⟩ } }
        [.GoToPhase .ResearchDiscovery, .StartResearch, .ResearchComplete,
          .GoToPhase .ProjectIntake, .GoToPhase .ResearchDiscovery]).toOption.map
      (fun r => r.2.1.count (.send .StartResearch)))
      = some 2 := by
  rfl

/-- Helper: a `Nodup` list of mapped keys separates elements — two members
with the same key are equal. -/
theorem nodup_map_inj {α β : Type} {f : α → β} {l : List α}
    (h : (l.map f).Nodup) {x y : α} (hx : x ∈ l) (hy : y ∈ l)
    (hf : f x = f y) : x = y := by
  induction l with
  | nil => cases hx
  | cons a as ih =>
    rw [List.map_cons, List.nodup_cons] at h
    rcases List.mem_cons.1 hx with rfl | hx2
    · rcases List.mem_cons.1 hy with rfl | hy2
      · rfl
      · exact absurd (hf ▸ List.mem_map_of_mem f hy2) h.1
    · rcases List.mem_cons.1 hy with rfl | hy2
      · exact absurd (hf ▸ List.mem_map_of_mem f hx2) h.1
      · exact ih h.2 hx2 hy2

/-- Helper: no extraction task for id `pid` is emitted by the fan-out loop
when every paper bearing that id fails the local source precondition. -/
theorem countP_extractTask_zero (s : App) (ps : String) (pid : String)
    (papers : List PaperMeta)
    (h : ∀ q ∈ papers, q.id = pid → (q.pdf_url.isNone && q.doi.isNone) = true) :
    (papers.flatMap (s.extractEmitFor ps)).countP (·.isExtractTaskFor pid)
      = 0 := by
  induction papers with
  | nil => rfl
  | cons q qs ih =>
    rw [List.flatMap_cons, List.countP_append,
      ih (fun r hr hid => h r (List.mem_cons_of_mem _ hr) hid), Nat.add_zero]
    by_cases hid : q.id = pid
    · have hnos := h q (List.mem_cons_self q qs) hid
      simp [App.extractEmitFor, hnos, Emit.isExtractTaskFor]
    · unfold App.extractEmitFor
      by_cases hq : (q.pdf_url.isNone && q.doi.isNone) = true
      · simp [hq, Emit.isExtractTaskFor]
      · simp [hq, Emit.isExtractTaskFor, hid]

/-- C6: in the extraction fan-out, (1) every paper with neither a PDF URL
nor a DOI reports an immediate failure action and causes zero remote calls
(no extraction task for its id is spawned), (2) every other paper in the
batch still gets its own concurrent task, and (3) in the 3-paper scenario
with paper #2 unsourced, for every arrival order of the three terminal
reports the job completes with exactly 2 successes and 1 failure counted,
job-complete fires exactly once, and no remote call is ever attributed to
paper #2. -/
theorem extraction_fanout_precondition_and_partial_failure :
    (∀ (s : App) (papers : List PaperMeta) (p : PaperMeta),
      s.sidecar_client = true → p ∈ papers →
      p.pdf_url = none → p.doi = none →
      (papers.map (·.id)).Nodup →
        (s.spawn_extract_techniques papers).countP (·.isExtractTaskFor p.id) = 0 ∧
        Emit.send (.TechniqueExtractionFailed p.id "No PDF URL or DOI available")
          ∈ s.spawn_extract_techniques papers) ∧
    (∀ (s : App) (papers : List PaperMeta) (p : PaperMeta),
      s.sidecar_client = true → p ∈ papers →
      ¬(p.pdf_url = none ∧ p.doi = none) →
        ∃ ps ur, Emit.task (.extractTechnique p ps ur)
          ∈ s.spawn_extract_techniques papers) ∧
    (∀ reports : List Action, reports.Perm c6_reports →
      ((c6_base.runActions (.StartExtraction c6_papers :: reports)).toOption.map
        (fun r =>
          (r.1.technique_cards.techniques.length,
            (r.1.technique_cards.errors.length,
              r.2.2.count Action.ExtractionComplete,
              r.2.1.countP (·.isExtractTaskFor "p2")))))
        = some (2, 1, 1, 0)) := by
  refine ⟨?_, ?_, ?_⟩
  · intro s papers p hc hmem hpdf hdoi hnd
    have hfail : s.extractEmitFor
        ((s.project_intake.profile.map (·.summary)).getD "") p
        = [.send (.TechniqueExtractionFailed p.id
            "No PDF URL or DOI available")] := by
      simp [App.extractEmitFor, hpdf, hdoi]
    constructor
    · simp only [App.spawn_extract_techniques, hc, Bool.not_true, if_neg,
        Bool.false_eq_true, not_false_eq_true, List.countP_cons]
      have hzero := countP_extractTask_zero s
        ((s.project_intake.profile.map (·.summary)).getD "") p.id papers
        (fun q hq hid => by
          have : q = p := nodup_map_inj hnd hq hmem hid
          subst this
          simp [hpdf, hdoi])
      rw [hzero]
      rfl
    · simp only [App.spawn_extract_techniques, hc, Bool.not_true, if_neg,
        Bool.false_eq_true, not_false_eq_true]
      refine List.mem_cons_of_mem _ (List.mem_flatMap.2 ⟨p, hmem, ?_⟩)
      rw [hfail]
      exact List.mem_singleton.2 rfl
  · intro s papers p hc hmem hsrc
    refine ⟨(s.project_intake.profile.map (·.summary)).getD "",
      s.user_description, ?_⟩
    simp only [App.spawn_extract_techniques, hc, Bool.not_true, if_neg,
      Bool.false_eq_true, not_false_eq_true]
    refine List.mem_cons_of_mem _ (List.mem_flatMap.2 ⟨p, hmem, ?_⟩)
    have hq : (p.pdf_url.isNone && p.doi.isNone) = false := by
      cases hpu : p.pdf_url with
      | some u => simp
      | none =>
        cases hdo : p.doi with
        | some d => simp
        | none => exact absurd ⟨hpu, hdo⟩ hsrc
    rw [App.extractEmitFor, hq]
    exact List.mem_singleton.2 rfl
  · intro reports hp
    have hm : reports ∈ c6_reports.permutations' := List.mem_permutations'.2 hp
    have hall : ∀ l ∈ c6_reports.permutations',
        ((c6_base.runActions (.StartExtraction c6_papers :: l)).toOption.map
          (fun r =>
            (r.1.technique_cards.techniques.length,
              (r.1.technique_cards.errors.length,
                r.2.2.count Action.ExtractionComplete,
                r.2.1.countP (·.isExtractTaskFor "p2")))))
          = some (2, 1, 1, 0) := by decide
    exact hall reports hm

/-- C10: while the merge dialog is visible, dispatching `NextPhase` or
`PrevPhase` never changes the active phase (and emits no effects); the
dialog instead consumes these actions through its own handler — when the
blend slider is focused they step `blend_a` up/down. -/
theorem merge_dialog_blocks_phase_navigation (s : App)
    (hv : s.merge_dialog.visible = true) :
    ∃ rn rp,
      App.dispatch s .NextPhase = .ok rn ∧
      App.dispatch s .PrevPhase = .ok rp ∧
      rn.1.current_phase = s.current_phase ∧
      rp.1.current_phase = s.current_phase ∧
      rn.2.1 = [] ∧ rp.2.1 = [] ∧
      s.merge_dialog.handle_action .NextPhase = .ok (rn.1.merge_dialog, none) ∧
      s.merge_dialog.handle_action .PrevPhase = .ok (rp.1.merge_dialog, none) ∧
      (s.merge_dialog.focused = .BlendSlider →
        rn.1.merge_dialog.blend_a = s.merge_dialog.blend_a.next ∧
        rp.1.merge_dialog.blend_a = s.merge_dialog.blend_a.prev) := by
  obtain ⟨mdN, hmdN⟩ := mergeHandle_isOk s.merge_dialog .NextPhase (by simp)
  obtain ⟨mdP, hmdP⟩ := mergeHandle_isOk s.merge_dialog .PrevPhase (by simp)
  obtain ⟨hpN, hhpN⟩ := helpHandle_isOk s.help .NextPhase
  obtain ⟨hpP, hhpP⟩ := helpHandle_isOk s.help .PrevPhase
  obtain ⟨sbN, hsbN⟩ := statusBarHandle_isOk s.status_bar .NextPhase
  obtain ⟨sbP, hsbP⟩ := statusBarHandle_isOk s.status_bar .PrevPhase
  have hovN := overlayStep_eq s .NextPhase hmdN hhpN hsbN
  have hovP := overlayStep_eq s .PrevPhase hmdP hhpP hsbP
  have hdN : App.dispatch s .NextPhase
      = .ok ({ s with merge_dialog := mdN, help := hpN, status_bar := sbN },
          [], [.NextPhase]) := by
    rw [App.dispatch, show (4 : Nat) = 3 + 1 from rfl]
    exact handle_actionF_simple 3 s .NextPhase (by simp) rfl rfl
      (globalStep_nav_dialogVisible s _ hv (Or.inl rfl))
      (forwardStep_noop_nav s _ (Or.inl rfl)) hovN rfl
  have hdP : App.dispatch s .PrevPhase
      = .ok ({ s with merge_dialog := mdP, help := hpP, status_bar := sbP },
          [], [.PrevPhase]) := by
    rw [App.dispatch, show (4 : Nat) = 3 + 1 from rfl]
    exact handle_actionF_simple 3 s .PrevPhase (by simp) rfl rfl
      (globalStep_nav_dialogVisible s _ hv (Or.inr rfl))
      (forwardStep_noop_nav s _ (Or.inr rfl)) hovP rfl
  refine ⟨_, _, hdN, hdP, rfl, rfl, rfl, rfl, hmdN, hmdP, ?_⟩
  intro hf
  simp only [MergeDialogComponent.handle_action, hv, hf, Bool.not_true,
    Bool.false_eq_true, if_false, Except.ok.injEq, Prod.mk.injEq,
    and_true] at hmdN hmdP
  constructor
  · rw [← hmdN]
  · rw [← hmdP]


theorem genReports_nil_of_empty {reports : List Action}
    (h : GenReports reports []) : reports = [] := by
  cases h with
  | nil => rfl
  | success w st rest rem hst => cases hst
  | failure st err rest rem hst => cases hst

theorem vbHandle_generated (c : VariantBuilderComponent) (v : Variant) :
    c.handle_action (.VariantGenerated v) = .ok
      ({ c with variants :=
        if (updateFirstWhere (fun w => w.id = v.id) (fun _ => v) c.variants).2
        then (updateFirstWhere (fun w => w.id = v.id) (fun _ => v)
          c.variants).1
        else c.variants ++ [v] }, none) := rfl

theorem vbHandle_failed (c : VariantBuilderComponent) (vid err : String) :
    c.handle_action (.VariantGenerationFailed vid err) = .ok
      ({ c with variants :=
        (updateFirstWhere (fun w => w.id.s = vid)
          (fun w => { w with status := .Failed err }) c.variants).1 },
        none) := rfl

theorem vbHandle_genComplete (c : VariantBuilderComponent) :
    c.handle_action .GenerationComplete = .ok
      ({ c with generating := false },
        some (.SetStatus
          (toString (c.variants.filter (fun v => v.status = .Ready)).length
            ++ "/" ++ toString c.variants.length
            ++ " variants generated. Press [Right] to benchmark."))) := rfl

theorem updateFirstWhere_spec (p : α → Bool) (f : α → α) (l : List α) :
    ((updateFirstWhere p f l).2 = false ∧ (updateFirstWhere p f l).1 = l
        ∧ ∀ x ∈ l, p x = false) ∨
    (∃ l1 x0 l2, l = l1 ++ x0 :: l2 ∧ (∀ z ∈ l1, p z = false) ∧
      p x0 = true ∧ (updateFirstWhere p f l).1 = l1 ++ f x0 :: l2 ∧
      (updateFirstWhere p f l).2 = true) := by
  induction l with
  | nil => exact Or.inl ⟨rfl, rfl, by simp⟩
  | cons x xs ih =>
    by_cases hx : p x = true
    · refine Or.inr ⟨[], x, xs, rfl, by simp, hx, ?_, ?_⟩
      · unfold updateFirstWhere
        rw [hx]
        simp
      · unfold updateFirstWhere
        rw [hx]
        simp
    · rw [Bool.not_eq_true] at hx
      rcases ih with ⟨h2, h1, hall⟩ | ⟨l1, x0, l2, hdec, hl1, hx0, h1, h2⟩
      · refine Or.inl ⟨?_, ?_, ?_⟩
        · unfold updateFirstWhere
          rw [hx]
          simpa using h2
        · unfold updateFirstWhere
          rw [hx]
          simp [h1]
        · intro z hz
          rcases List.mem_cons.1 hz with rfl | hz2
          · exact hx
          · exact hall z hz2
      · refine Or.inr ⟨x :: l1, x0, l2, by rw [hdec]; rfl, ?_, hx0, ?_, ?_⟩
        · intro z hz
          rcases List.mem_cons.1 hz with rfl | hz2
          · exact hx
          · exact hl1 z hz2
        · unfold updateFirstWhere
          rw [hx]
          simp [h1]
        · unfold updateFirstWhere
          rw [hx]
          simpa using h2

theorem forwardStep_genComplete_aux (t : App)
    (hph : t.current_phase = .VariantGeneration) :
    t.forwardStep .GenerationComplete = .ok
      ({ t with variant_builder :=
          { t.variant_builder with generating := false } },
        some (.SetStatus
          (toString ((t.variant_builder.variants.filter
              (fun v => v.status = .Ready)).length)
            ++ "/" ++ toString t.variant_builder.variants.length
            ++ " variants generated. Press [Right] to benchmark."))) := by
  have h := forwardStep_vbEq t .GenerationComplete hph
    (vbHandle_genComplete t.variant_builder)
  exact h

theorem dispatch_generationComplete_ok (fuel : Nat) (t : App)
    (hph : t.current_phase = .VariantGeneration) :
    ∃ t2 msg, App.handle_actionF (fuel + 2) t .GenerationComplete
      = .ok (t2, [], [.GenerationComplete, .SetStatus msg]) ∧
      t2.current_phase = t.current_phase ∧
      t2.should_quit = t.should_quit ∧
      t2.variant_builder.generating = false ∧
      t2.variant_builder.variants = t.variant_builder.variants := by
  have hfwd := forwardStep_genComplete_aux t hph
  obtain ⟨md, hmd⟩ := mergeHandle_isOk
    ({ t with variant_builder :=
      { t.variant_builder with generating := false } } : App).merge_dialog
    .GenerationComplete (by simp)
  obtain ⟨hpp, hhp⟩ := helpHandle_isOk
    ({ t with variant_builder :=
      { t.variant_builder with generating := false } } : App).help
    .GenerationComplete
  obtain ⟨sb, hsb⟩ := statusBarHandle_isOk
    ({ t with variant_builder :=
      { t.variant_builder with generating := false } } : App).status_bar
    .GenerationComplete
  have hov := overlayStep_eq _ .GenerationComplete hmd hhp hsb
  obtain ⟨t3, hS, hSph, hSq, hStc, hSvb⟩ := dispatch_setStatus_ok fuel
    ({ t with
      variant_builder := { t.variant_builder with generating := false }
      merge_dialog := md
      help := hpp
      status_bar := sb } : App)
    (toString ((t.variant_builder.variants.filter
        (fun v => v.status = .Ready)).length)
      ++ "/" ++ toString t.variant_builder.variants.length
      ++ " variants generated. Press [Right] to benchmark.")
  have hchain := handle_actionF_chain (fuel + 1) t .GenerationComplete
    (by simp) rfl rfl rfl hfwd hov rfl hS
  refine ⟨t3, _, hchain, hSph, hSq, ?_, ?_⟩
  · rw [hSvb]
  · rw [hSvb]

theorem erase_eq_nil_of_mem {rem : List Variant} {st : Variant}
    (hst : st ∈ rem) (h : rem.erase st = []) : rem = [st] := by
  cases rem with
  | nil => cases hst
  | cons r rs =>
    rw [List.erase_cons] at h
    by_cases hr : r = st
    · subst hr
      simp at h
      rw [h]
    · simp [hr] at h

theorem gen_step_state (vs : List Variant) (st : Variant)
    (p : Variant → Bool) (f : Variant → Variant)
    (hnodup : (vs.map (·.id)).Nodup)
    (hstmem : st ∈ vs)
    (hpiff : ∀ z, p z = true ↔ z.id = st.id)
    (hfid : ∀ z, z.id = st.id → (f z).id = z.id)
    (hfset : ∀ z, z.id = st.id → (f z).status.isSettled = true) :
    (updateFirstWhere p f vs).2 = true ∧
    (updateFirstWhere p f vs).1.map (·.id) = vs.map (·.id) ∧
    (∀ z ∈ (updateFirstWhere p f vs).1,
      z ∈ vs ∨ z.status.isSettled = true) ∧
    (∀ z ∈ vs, z.id ≠ st.id → z ∈ (updateFirstWhere p f vs).1) ∧
    (∀ z ∈ (updateFirstWhere p f vs).1, z.id = st.id →
      z.status.isSettled = true) := by
  rcases updateFirstWhere_spec p f vs with ⟨h2, h1, hall⟩ |
    ⟨l1, x0, l2, hdec, hl1, hx0, h1, h2⟩
  · exact absurd ((hpiff st).2 rfl) (by rw [hall st hstmem]; simp)
  · have hx0id : x0.id = st.id := (hpiff x0).1 hx0
    have hfx0id : (f x0).id = x0.id := hfid x0 hx0id
    have hmid : x0.id ∉ (l1 ++ l2).map (·.id) := by
      rw [hdec] at hnodup
      rw [List.map_append, List.map_cons] at hnodup
      have h3 := List.nodup_middle.1 hnodup
      have h4 := (List.nodup_cons.1 h3).1
      simpa using h4
    refine ⟨h2, ?_, ?_, ?_, ?_⟩
    · rw [h1, hdec]
      simp [hfx0id]
    · intro z hz
      rw [h1] at hz
      rcases List.mem_append.1 hz with hz1 | hz2
      · exact Or.inl (by rw [hdec]; exact List.mem_append_left _ hz1)
      · rcases List.mem_cons.1 hz2 with rfl | hz3
        · exact Or.inr (hfset x0 hx0id)
        · exact Or.inl (by
            rw [hdec]
            exact List.mem_append_right _ (List.mem_cons_of_mem _ hz3))
    · intro z hz hzid
      rw [hdec] at hz
      rw [h1]
      rcases List.mem_append.1 hz with hz1 | hz2
      · exact List.mem_append_left _ hz1
      · rcases List.mem_cons.1 hz2 with rfl | hz3
        · exact absurd hx0id hzid
        · exact List.mem_append_right _ (List.mem_cons_of_mem _ hz3)
    · intro z hz hzid
      rw [h1] at hz
      rcases List.mem_append.1 hz with hz1 | hz2
      · have hzin : z.id ∈ (l1 ++ l2).map (·.id) :=
          List.mem_map_of_mem _ (List.mem_append_left l2 hz1)
        rw [hzid, ← hx0id] at hzin
        exact absurd hzin hmid
      · rcases List.mem_cons.1 hz2 with rfl | hz3
        · exact hfset x0 hx0id
        · have hzin : z.id ∈ (l1 ++ l2).map (·.id) :=
            List.mem_map_of_mem _ (List.mem_append_right l1 hz3)
          rw [hzid, ← hx0id] at hzin
          exact absurd hzin hmid

theorem variantId_eq_iff (a b : VariantId) : a = b ↔ a.s = b.s := by
  constructor
  · intro h
    rw [h]
  · intro h
    cases a
    cases b
    cases h
    rfl

theorem gen_report_step (s : App) (a : Action) (rem : List Variant)
    (st : Variant) (p : Variant → Bool) (f : Variant → Variant)
    (hnq : ¬a = .Quit)
    (hnext : a.isExtractTerminal = false)
    (ha : a.isGenTerminal = true)
    (hbeq : (a == Action.GenerationComplete) = false)
    (hbeq2 : (Action.GenerationComplete == a) = false)
    (hgg : s.globalStep a = (s, []))
    (hpa : ∀ t : App, t.autoAdvanceStep a = (t, []))
    (hvb : s.variant_builder.handle_action a = .ok
      ({ s.variant_builder with
          variants := (updateFirstWhere p f s.variant_builder.variants).1 },
        none))
    (hph : s.current_phase = .VariantGeneration)
    (hqt : s.should_quit = false)
    (hgen : s.variant_builder.generating = true)
    (hnodup : (s.variant_builder.variants.map (·.id)).Nodup)
    (hremnd : (rem.map (·.id)).Nodup)
    (hstrem : st ∈ rem)
    (hremmem : ∀ x ∈ rem, x ∈ s.variant_builder.variants)
    (hrempend : ∀ x ∈ rem, x.status.isSettled = false)
    (hcover : ∀ z ∈ s.variant_builder.variants,
      z.status.isSettled = true ∨ ∃ x ∈ rem, z.id = x.id)
    (hpiff : ∀ z, p z = true ↔ z.id = st.id)
    (hfid : ∀ z, z.id = st.id → (f z).id = z.id)
    (hfset : ∀ z, z.id = st.id → (f z).status.isSettled = true) :
    ∃ r, App.dispatch s a = .ok r ∧
      r.1.current_phase = .VariantGeneration ∧
      r.1.should_quit = false ∧
      r.1.variant_builder.variants.map (·.id)
        = s.variant_builder.variants.map (·.id) ∧
      (∀ x ∈ rem.erase st, x ∈ r.1.variant_builder.variants) ∧
      (∀ z ∈ r.1.variant_builder.variants,
        z.status.isSettled = true ∨ ∃ x ∈ rem.erase st, z.id = x.id) ∧
      (if rem.erase st = []
       then r.2.2.count Action.GenerationComplete = 1
         ∧ r.1.variant_builder.generating = false
       else r.2.2.count Action.GenerationComplete = 0
         ∧ r.1.variant_builder.generating = true) := by
  obtain ⟨hfound, hids, hmem3, hkeep, hsettl⟩ :=
    gen_step_state s.variant_builder.variants st p f hnodup
      (hremmem st hstrem) hpiff hfid hfset
  have hremnd2 : rem.Nodup := hremnd.of_map
  have hidne : ∀ x ∈ rem.erase st, x.id ≠ st.id := by
    intro x hx hxid
    have hxmem : x ∈ rem := List.mem_of_mem_erase hx
    have hxne : x ≠ st := ((List.Nodup.mem_erase_iff hremnd2).1 hx).1
    exact hxne (nodup_map_inj hremnd hxmem hstrem hxid)
  have hkeep2 : ∀ x ∈ rem.erase st,
      x ∈ (updateFirstWhere p f s.variant_builder.variants).1 := by
    intro x hx
    exact hkeep x (hremmem x (List.mem_of_mem_erase hx)) (hidne x hx)
  have hcover2 : ∀ z ∈ (updateFirstWhere p f s.variant_builder.variants).1,
      z.status.isSettled = true ∨ ∃ x ∈ rem.erase st, z.id = x.id := by
    intro z hz
    by_cases hzid : z.id = st.id
    · exact Or.inl (hsettl z hz hzid)
    · rcases hmem3 z hz with hzv | hzs
      · rcases hcover z hzv with hzs | ⟨x, hx, hzx⟩
        · exact Or.inl hzs
        · have hxne : x ≠ st := fun hxe => hzid (by rw [hzx, hxe])
          exact Or.inr
            ⟨x, (List.Nodup.mem_erase_iff hremnd2).2 ⟨hxne, hx⟩, hzx⟩
      · exact Or.inl hzs
  have hfwd := forwardStep_vbEq s a hph hvb
  obtain ⟨md2, hmd⟩ := mergeHandle_isOk
    ({ s with variant_builder :=
      { s.variant_builder with
        variants := (updateFirstWhere p f s.variant_builder.variants).1 } }
      : App).merge_dialog a (genTerminal_ne_confirm ha)
  obtain ⟨hp2, hhp⟩ := helpHandle_isOk
    ({ s with variant_builder :=
      { s.variant_builder with
        variants := (updateFirstWhere p f s.variant_builder.variants).1 } }
      : App).help a
  obtain ⟨sb2, hsb⟩ := statusBarHandle_isOk
    ({ s with variant_builder :=
      { s.variant_builder with
        variants := (updateFirstWhere p f s.variant_builder.variants).1 } }
      : App).status_bar a
  have hov := overlayStep_eq _ a hmd hhp hsb
  by_cases h0 : rem.erase st = []
  · have hall : ((updateFirstWhere p f s.variant_builder.variants).1.all
        (fun v => v.status.isSettled)) = true := by
      rw [List.all_eq_true]
      intro z hz
      rcases hcover2 z hz with hzs | ⟨x, hx, _⟩
      · exact hzs
      · rw [h0] at hx
        cases hx
    obtain ⟨t2, msg, hE, hEph, hEq, hEgen, hEvb⟩ :=
      dispatch_generationComplete_ok 1
      ({ s with
        variant_builder :=
          { s.variant_builder with
            variants := (updateFirstWhere p f s.variant_builder.variants).1 }
        merge_dialog := md2
        help := hp2
        status_bar := sb2 } : App) hph
    have hfire := handle_actionF_genFire 3 s a hnq hnext ha hgg hfwd hov
      (hpa _) hgen hall hE
    refine ⟨_, hfire, hEph.trans hph, ?_, ?_, ?_, ?_, ?_⟩
    · rw [hEq]
      exact hqt
    · rw [hEvb]
      exact hids
    · intro x hx
      rw [h0] at hx
      cases hx
    · intro z hz
      rw [hEvb] at hz
      exact Or.inl (List.all_eq_true.1 hall z hz)
    · rw [if_pos h0]
      refine ⟨?_, hEgen⟩
      simp [List.count_cons, hbeq, hbeq2]
  · obtain ⟨x0, hx0⟩ := List.exists_mem_of_ne_nil (rem.erase st) h0
    have hx0v : x0 ∈ (updateFirstWhere p f s.variant_builder.variants).1 :=
      hkeep2 x0 hx0
    have hallf : ((updateFirstWhere p f s.variant_builder.variants).1.all
        (fun v => v.status.isSettled)) = false := by
      refine Bool.eq_false_iff.2 (fun hc => ?_)
      have h1 : x0.status.isSettled = true := List.all_eq_true.1 hc x0 hx0v
      rw [hrempend x0 (List.mem_of_mem_erase hx0)] at h1
      exact Bool.false_ne_true h1
    have hnof := handle_actionF_genNoFire 3 s a hnq hnext ha hgg hfwd hov
      (hpa _) hallf
    refine ⟨_, hnof, hph, hqt, hids, hkeep2, hcover2, ?_⟩
    rw [if_neg h0]
    refine ⟨?_, hgen⟩
    simp [List.count_cons, hbeq, hbeq2]

theorem gen_run_aux {reports : List Action} {rem : List Variant}
    (hgr : GenReports reports rem) :
    ∀ s : App,
    rem ≠ [] →
    s.current_phase = .VariantGeneration →
    s.should_quit = false →
    s.variant_builder.generating = true →
    (s.variant_builder.variants.map (·.id)).Nodup →
    (rem.map (·.id)).Nodup →
    (∀ x ∈ rem, x ∈ s.variant_builder.variants) →
    (∀ x ∈ rem, x.status.isSettled = false) →
    (∀ z ∈ s.variant_builder.variants,
      z.status.isSettled = true ∨ ∃ x ∈ rem, z.id = x.id) →
    ∃ r, App.runActions s reports = .ok r ∧
      r.2.2.count Action.GenerationComplete = 1 ∧
      r.1.variant_builder.generating = false := by
  induction hgr with
  | nil =>
    intro s hne
    exact absurd rfl hne
  | success w st rest rem2 hst hwid hwst hrest ih =>
    intro s hne hph hqt hgen hnodup hremnd hremmem hrempend hcover
    have hpiff : ∀ z : Variant,
        (decide (z.id = w.id)) = true ↔ z.id = st.id := by
      intro z
      rw [decide_eq_true_eq, hwid]
    have hfid : ∀ z : Variant, z.id = st.id → w.id = z.id :=
      fun z hz => hwid.trans hz.symm
    have hfset : ∀ z : Variant, z.id = st.id
        → VariantStatus.isSettled w.status = true := by
      intro z hz
      rw [hwst]
      rfl
    obtain ⟨hfound, h2, h3, h4, h5⟩ :=
      gen_step_state s.variant_builder.variants st
        (fun z => decide (z.id = w.id)) (fun _ => w) hnodup
        (hremmem st hst) hpiff hfid hfset
    have hvb0 := vbHandle_generated s.variant_builder w
    rw [if_pos hfound] at hvb0
    obtain ⟨r1, hd, hph1, hqt1, hids1, hmem1, hcov1, hcond⟩ :=
      gen_report_step s (.VariantGenerated w) rem2 st
        (fun z => decide (z.id = w.id)) (fun _ => w)
        (fun h => Action.noConfusion h) rfl rfl rfl rfl rfl
        (fun t => rfl)
        hvb0 hph hqt hgen hnodup hremnd hst hremmem hrempend hcover
        hpiff hfid hfset
    by_cases h0 : rem2.erase st = []
    · rw [if_pos h0] at hcond
      have hrest0 : rest = [] := genReports_nil_of_empty (h0 ▸ hrest)
      subst hrest0
      refine ⟨(r1.1, r1.2.1 ++ [], r1.2.2 ++ []), ?_, ?_, hcond.2⟩
      · unfold App.runActions
        simp only [hd, exceptBind_ok, hqt1, Bool.false_eq_true, if_false]
        rfl
      · simp only [List.count_append, List.count_nil, Nat.add_zero]
        exact hcond.1
    · rw [if_neg h0] at hcond
      obtain ⟨r2, hrun2, hcnt2, hgen2⟩ := ih r1.1 h0 hph1 hqt1 hcond.2
        (by rw [hids1]; exact hnodup)
        (hremnd.sublist (List.Sublist.map _ (List.erase_sublist st rem2)))
        hmem1
        (fun x hx => hrempend x (List.mem_of_mem_erase hx))
        hcov1
      refine ⟨(r2.1, r1.2.1 ++ r2.2.1, r1.2.2 ++ r2.2.2), ?_, ?_, hgen2⟩
      · unfold App.runActions
        simp only [hd, exceptBind_ok, hqt1, Bool.false_eq_true, if_false,
          hrun2]
      · simp only [List.count_append]
        rw [hcond.1, hcnt2]
  | failure st err rest rem2 hst hrest ih =>
    intro s hne hph hqt hgen hnodup hremnd hremmem hrempend hcover
    have hpiff : ∀ z : Variant,
        (decide (z.id.s = st.id.s)) = true ↔ z.id = st.id := by
      intro z
      rw [decide_eq_true_eq]
      exact (variantId_eq_iff z.id st.id).symm
    have hfid : ∀ z : Variant, z.id = st.id
        → ({ z with status := .Failed err } : Variant).id = z.id :=
      fun z hz => rfl
    have hfset : ∀ z : Variant, z.id = st.id
        → VariantStatus.isSettled
            ({ z with status := .Failed err } : Variant).status = true :=
      fun z hz => rfl
    have hvb0 := vbHandle_failed s.variant_builder st.id.s err
    obtain ⟨r1, hd, hph1, hqt1, hids1, hmem1, hcov1, hcond⟩ :=
      gen_report_step s (.VariantGenerationFailed st.id.s err) rem2 st
        (fun z => decide (z.id.s = st.id.s))
        (fun z => { z with status := .Failed err })
        (fun h => Action.noConfusion h) rfl rfl rfl rfl rfl
        (fun t => rfl)
        hvb0 hph hqt hgen hnodup hremnd hst hremmem hrempend hcover
        hpiff hfid hfset
    by_cases h0 : rem2.erase st = []
    · rw [if_pos h0] at hcond
      have hrest0 : rest = [] := genReports_nil_of_empty (h0 ▸ hrest)
      subst hrest0
      refine ⟨(r1.1, r1.2.1 ++ [], r1.2.2 ++ []), ?_, ?_, hcond.2⟩
      · unfold App.runActions
        simp only [hd, exceptBind_ok, hqt1, Bool.false_eq_true, if_false]
        rfl
      · simp only [List.count_append, List.count_nil, Nat.add_zero]
        exact hcond.1
    · rw [if_neg h0] at hcond
      obtain ⟨r2, hrun2, hcnt2, hgen2⟩ := ih r1.1 h0 hph1 hqt1 hcond.2
        (by rw [hids1]; exact hnodup)
        (hremnd.sublist (List.Sublist.map _ (List.erase_sublist st rem2)))
        hmem1
        (fun x hx => hrempend x (List.mem_of_mem_erase hx))
        hcov1
      refine ⟨(r2.1, r1.2.1 ++ r2.2.1, r1.2.2 ++ r2.2.2), ?_, ?_, hgen2⟩
      · unfold App.runActions
        simp only [hd, exceptBind_ok, hqt1, Bool.false_eq_true, if_false,
          hrun2]
      · simp only [List.count_append]
        rw [hcond.1, hcnt2]

/-- C2: job-complete fires exactly once per fan-out job, for every arrival
order of the N terminal unit-reports.  Extraction side: from a state running
an extraction over N expected reports, any nonempty sequence of N
extraction-terminal reports (whose cards carry non-NaN scores, over a list
of already-extracted cards with non-NaN scores) makes the run succeed,
dispatch `ExtractionComplete` exactly once, and clear the `extracting`
flag.  Generation side: from a state running a generation over the tracked
stub variants (all pending, with distinct ids), every arrival order of one
terminal report per stub — captured by `GenReports` — makes the run
succeed, dispatch `GenerationComplete` exactly once, and clear the
`generating` flag. -/
theorem fanout_job_complete_fires_exactly_once :
    (∀ (s : App) (reports : List Action) (N : Nat),
      reports ≠ [] →
      reports.length = N →
      (∀ a ∈ reports, a.isExtractTerminal = true) →
      (∀ a ∈ reports, ∀ card, a = .TechniqueExtracted card →
        ∃ q, card.relevance_score = FVal.val q) →
      s.current_phase = .TechniqueSelection →
      s.should_quit = false →
      s.technique_cards.extracting = true →
      s.technique_cards.progress = (0, N) →
      (∀ c ∈ s.technique_cards.techniques,
        ∃ q, c.relevance_score = FVal.val q) →
      ∃ r, App.runActions s reports = .ok r ∧
        r.2.2.count Action.ExtractionComplete = 1 ∧
        r.1.technique_cards.extracting = false) ∧
    (∀ (s : App) (reports : List Action),
      GenReports reports s.variant_builder.variants →
      s.variant_builder.variants ≠ [] →
      s.current_phase = .VariantGeneration →
      s.should_quit = false →
      s.variant_builder.generating = true →
      (s.variant_builder.variants.map (·.id)).Nodup →
      (∀ x ∈ s.variant_builder.variants, x.status = .Pending) →
      ∃ r, App.runActions s reports = .ok r ∧
        r.2.2.count Action.GenerationComplete = 1 ∧
        r.1.variant_builder.generating = false) := by
  constructor
  · intro s reports N hne hlen hterm hsc hph hqt hex hpr hscores
    exact extract_run_aux reports 0 N s hne (by rw [Nat.zero_add, hlen])
      hterm hsc hph hqt hex hpr hscores
  · intro s reports hgr hne hph hqt hgen hnodup hpend
    refine gen_run_aux hgr s hne hph hqt hgen hnodup hnodup
      (fun x hx => hx) ?_ (fun z hz => Or.inr ⟨z, hz, rfl⟩)
    intro x hx
    rw [hpend x hx]
    rfl

/-- C2 witness: a concrete single-report run on each side — the failure
report for the single expected paper and the failure report for the single
pending stub. -/
theorem fanout_job_complete_fires_exactly_once_witness :
    (∃ r, App.runActions c2_ext_base
        [Action.TechniqueExtractionFailed "p1" "err"] = .ok r ∧
      r.2.2.count Action.ExtractionComplete = 1 ∧
      r.1.technique_cards.extracting = false) ∧
    (∃ r, App.runActions c2_gen_base
        [Action.VariantGenerationFailed "variant-0" "boom"] = .ok r ∧
      r.2.2.count Action.GenerationComplete = 1 ∧
      r.1.variant_builder.generating = false) := by
  constructor
  · have hsc : ∀ a ∈ [Action.TechniqueExtractionFailed "p1" "err"],
        ∀ card, a = Action.TechniqueExtracted card →
        ∃ q, card.relevance_score = FVal.val q := by
      intro a ha card hc
      rw [List.mem_singleton] at ha
      subst ha
      exact Action.noConfusion hc
    exact fanout_job_complete_fires_exactly_once.1 c2_ext_base
      [Action.TechniqueExtractionFailed "p1" "err"] 1
      (by simp) rfl (by decide) hsc rfl rfl rfl rfl
      (by intro c hc; cases hc)
  · have herase : ([c2_stub].erase c2_stub) = [] := by decide
    have hnil : GenReports [] ([c2_stub].erase c2_stub) := by
      rw [herase]
      exact GenReports.nil
    have hgr := GenReports.failure c2_stub "boom" [] [c2_stub]
      (List.mem_singleton.2 rfl) hnil
    exact fanout_job_complete_fires_exactly_once.2 c2_gen_base
      [Action.VariantGenerationFailed "variant-0" "boom"] hgr (by decide)
      rfl rfl rfl (by decide) (by decide)

/-- C1 (amended): the two fan-out jobs use different completion oracles.
Extraction side: after an extraction-terminal report at Phase 3 the
`(done, total)` progress counter increments, and `ExtractionComplete` is
synthesized precisely when the counter condition
`0 < total ∧ total ≤ done + 1` holds — the counter is the oracle, not the
live collection.  Generation side: after a `VariantGenerated` report at
Phase 4 the reducer updates the tracked collection and recomputes
settledness over the live updated collection, and `GenerationComplete` is
synthesized precisely when every tracked variant is settled — there the
collection is the oracle. -/
theorem job_completion_oracles :
    (∀ (s : App) (a : Action),
      a.isExtractTerminal = true →
      s.current_phase = .TechniqueSelection →
      s.should_quit = false →
      s.technique_cards.extracting = true →
      (∀ c ∈ s.technique_cards.techniques,
        ∃ q, c.relevance_score = FVal.val q) →
      (∀ card, a = .TechniqueExtracted card →
        ∃ q, card.relevance_score = FVal.val q) →
      ∃ r, App.dispatch s a = .ok r ∧
        r.1.technique_cards.progress
          = (s.technique_cards.progress.1 + 1,
             s.technique_cards.progress.2) ∧
        (if 0 < s.technique_cards.progress.2
            ∧ s.technique_cards.progress.2
              ≤ s.technique_cards.progress.1 + 1
         then r.2.2.count Action.ExtractionComplete = 1
         else r.2.2.count Action.ExtractionComplete = 0)) ∧
    (∀ (s : App) (v : Variant),
      s.current_phase = .VariantGeneration →
      s.should_quit = false →
      s.variant_builder.generating = true →
      ∃ r, App.dispatch s (.VariantGenerated v) = .ok r ∧
        r.1.variant_builder.variants = vbApplyGenerated s.variant_builder v ∧
        (if (vbApplyGenerated s.variant_builder v).all
            (fun w => w.status.isSettled) = true
         then r.2.2.count Action.GenerationComplete = 1
         else r.2.2.count Action.GenerationComplete = 0)) := by
  constructor
  · intro s a ha hph hqt hex hscores hcard
    obtain ⟨r, hd, _, _, hpr, _, hcond⟩ :=
      extract_report_step s a ha hph hqt hex hscores hcard
    refine ⟨r, hd, hpr, ?_⟩
    by_cases hC : 0 < s.technique_cards.progress.2
        ∧ s.technique_cards.progress.2 ≤ s.technique_cards.progress.1 + 1
    · rw [if_pos hC] at hcond ⊢
      exact hcond.1
    · rw [if_neg hC] at hcond ⊢
      exact hcond.1
  · intro s v hph hqt hgen
    have hvb : s.variant_builder.handle_action (.VariantGenerated v) = .ok
        ({ s.variant_builder with
            variants := vbApplyGenerated s.variant_builder v }, none) := rfl
    have hfwd := forwardStep_vbEq s (.VariantGenerated v) hph hvb
    obtain ⟨md2, hmd⟩ := mergeHandle_isOk
      ({ s with variant_builder :=
        { s.variant_builder with
          variants := vbApplyGenerated s.variant_builder v } }
        : App).merge_dialog (.VariantGenerated v)
      (fun h => Action.noConfusion h)
    obtain ⟨hp2, hhp⟩ := helpHandle_isOk
      ({ s with variant_builder :=
        { s.variant_builder with
          variants := vbApplyGenerated s.variant_builder v } }
        : App).help (.VariantGenerated v)
    obtain ⟨sb2, hsb⟩ := statusBarHandle_isOk
      ({ s with variant_builder :=
        { s.variant_builder with
          variants := vbApplyGenerated s.variant_builder v } }
        : App).status_bar (.VariantGenerated v)
    have hov := overlayStep_eq _ (.VariantGenerated v) hmd hhp hsb
    by_cases hAll : ((vbApplyGenerated s.variant_builder v).all
        (fun w => w.status.isSettled)) = true
    · obtain ⟨t2, msg, hE, hEph, hEq, hEgen, hEvb⟩ :=
        dispatch_generationComplete_ok 1
        ({ s with
          variant_builder :=
            { s.variant_builder with
              variants := vbApplyGenerated s.variant_builder v }
          merge_dialog := md2
          help := hp2
          status_bar := sb2 } : App) hph
      have hfire := handle_actionF_genFire 3 s (.VariantGenerated v)
        (fun h => Action.noConfusion h) rfl rfl rfl hfwd hov rfl hgen hAll hE
      have hb1 : (Action.VariantGenerated v == Action.GenerationComplete)
          = false := rfl
      have hb2 : ∀ m : String,
          (Action.SetStatus m == Action.GenerationComplete) = false :=
        fun m => rfl
      have hvars : t2.variant_builder.variants
          = vbApplyGenerated s.variant_builder v := by
        rw [hEvb]
      refine ⟨_, hfire, hvars, ?_⟩
      rw [if_pos hAll]
      simp [List.count_cons, hb1, hb2 msg]
    · have hAllF : ((vbApplyGenerated s.variant_builder v).all
          (fun w => w.status.isSettled)) = false := Bool.eq_false_iff.2 hAll
      have hnof := handle_actionF_genNoFire 3 s (.VariantGenerated v)
        (fun h => Action.noConfusion h) rfl rfl rfl hfwd hov rfl hAllF
      have hb1 : (Action.VariantGenerated v == Action.GenerationComplete)
          = false := rfl
      refine ⟨_, hnof, rfl, ?_⟩
      rw [if_neg hAll]
      simp [List.count_cons, hb1]

/-- C1 witness: the extraction oracle at the single-paper state (counter
condition met by the first report) and the generation oracle at the
single-stub state (the ready variant settles the whole collection). -/
theorem job_completion_oracles_witness :
    (∃ r, App.dispatch c2_ext_base
        (.TechniqueExtractionFailed "p1" "err") = .ok r ∧
      r.1.technique_cards.progress
        = (c2_ext_base.technique_cards.progress.1 + 1,
           c2_ext_base.technique_cards.progress.2) ∧
      (if 0 < c2_ext_base.technique_cards.progress.2
          ∧ c2_ext_base.technique_cards.progress.2
            ≤ c2_ext_base.technique_cards.progress.1 + 1
       then r.2.2.count Action.ExtractionComplete = 1
       else r.2.2.count Action.ExtractionComplete = 0)) ∧
    (∃ r, App.dispatch c2_gen_base
        (.VariantGenerated { c2_stub with status := .Ready }) = .ok r ∧
      r.1.variant_builder.variants
        = vbApplyGenerated c2_gen_base.variant_builder
            { c2_stub with status := .Ready } ∧
      (if (vbApplyGenerated c2_gen_base.variant_builder
            { c2_stub with status := .Ready }).all
          (fun w => w.status.isSettled) = true
       then r.2.2.count Action.GenerationComplete = 1
       else r.2.2.count Action.GenerationComplete = 0)) := by
  constructor
  · exact job_completion_oracles.1 c2_ext_base
      (.TechniqueExtractionFailed "p1" "err") rfl rfl rfl rfl
      (by intro c hc; cases hc)
      (fun card hc => Action.noConfusion hc)
  · exact job_completion_oracles.2 c2_gen_base
      { c2_stub with status := .Ready } rfl rfl rfl

/-- C5 (amended): only the Phase-3 (technique-extraction) auto-trigger
carries an idempotent attempted-flag.  (1) Once
`technique_cards.extraction_attempted` is set, the Phase-3 trigger never
fires again; (2) the flag is set by the global `StartExtraction` arm the
first time the job starts; (3) the Phase-2 (research) trigger has no such
flag: it fires whenever its pure predicate over the aggregate state holds,
also on a revisit of the phase. -/
theorem auto_trigger_attempted_flag :
    (∀ s : App, s.technique_cards.extraction_attempted = true →
      s.auto_trigger_phase .TechniqueSelection = []) ∧
    (∀ (s : App) (papers : List PaperMeta),
      s.technique_cards.extracting = false →
      (s.globalStep
          (.StartExtraction papers)).1.technique_cards.extraction_attempted
        = true) ∧
    (∀ s : App,
      (s.project_intake.profile.isSome
        && s.research_explorer.papers.isEmpty
        && !s.research_explorer.searching) = true →
      s.auto_trigger_phase .ResearchDiscovery = [.send .StartResearch]) := by
  refine ⟨?_, ?_, ?_⟩
  · intro s h
    unfold App.auto_trigger_phase
    simp [h]
  · intro s papers h
    unfold App.globalStep
    simp [h]
  · intro s h
    unfold App.auto_trigger_phase
    simp [h]

/-- C5 witness: the three amended facts at concrete states — a state with
the attempted-flag set, the fresh state starting an extraction, and an
analyzed-but-unsearched state entering Phase 2. -/
theorem auto_trigger_attempted_flag_witness :
    ({ App.new with technique_cards :=
        { TechniqueCardsComponent.new with extraction_attempted := true } }
        : App).auto_trigger_phase .TechniqueSelection = [] ∧
    ((App.new.globalStep
        (.StartExtraction [])).1.technique_cards.extraction_attempted
      = true) ∧
    ({ App.new with project_intake :=
        { ProjectIntakeComponent.new with
          profile := some ⟨[], 0, "s", "/p"⟩ } }
        : App).auto_trigger_phase .ResearchDiscovery
      = [.send .StartResearch] := by
  refine ⟨?_, ?_, ?_⟩
  · exact auto_trigger_attempted_flag.1 _ rfl
  · exact auto_trigger_attempted_flag.2.1 App.new [] rfl
  · exact auto_trigger_attempted_flag.2.2 _ rfl

/-- C6 witness: the three parts at the 3-paper scenario — paper #2 (no PDF
URL, no DOI) causes zero extraction tasks and an immediate failure report,
paper #1 still gets its own task, and the identity arrival order completes
the job with 2 successes, 1 failure, one job-complete and no remote call
for paper #2. -/
theorem extraction_fanout_precondition_and_partial_failure_witness :
    ((c6_base.spawn_extract_techniques c6_papers).countP
        (·.isExtractTaskFor (mkPaper "p2" none none).id) = 0 ∧
      Emit.send (.TechniqueExtractionFailed (mkPaper "p2" none none).id
          "No PDF URL or DOI available")
        ∈ c6_base.spawn_extract_techniques c6_papers) ∧
    (∃ ps ur, Emit.task
        (.extractTechnique (mkPaper "p1" (some "u1") none) ps ur)
      ∈ c6_base.spawn_extract_techniques c6_papers) ∧
    ((c6_base.runActions
        (.StartExtraction c6_papers :: c6_reports)).toOption.map
      (fun r =>
        (r.1.technique_cards.techniques.length,
          (r.1.technique_cards.errors.length,
            r.2.2.count Action.ExtractionComplete,
            r.2.1.countP (·.isExtractTaskFor "p2")))))
      = some (2, 1, 1, 0) := by
  refine ⟨?_, ?_, ?_⟩
  · exact extraction_fanout_precondition_and_partial_failure.1 c6_base
      c6_papers (mkPaper "p2" none none) rfl (by decide) rfl rfl (by decide)
  · exact extraction_fanout_precondition_and_partial_failure.2.1 c6_base
      c6_papers (mkPaper "p1" (some "u1") none) rfl (by decide) (by decide)
  · exact extraction_fanout_precondition_and_partial_failure.2.2 c6_reports
      (List.Perm.refl c6_reports)

/-- C10 witness: the navigation block at a concrete state whose merge
dialog is open. -/
theorem merge_dialog_blocks_phase_navigation_witness :
    ∃ rn rp,
      App.dispatch c10_base .NextPhase = .ok rn ∧
      App.dispatch c10_base .PrevPhase = .ok rp ∧
      rn.1.current_phase = c10_base.current_phase ∧
      rp.1.current_phase = c10_base.current_phase ∧
      rn.2.1 = [] ∧ rp.2.1 = [] ∧
      c10_base.merge_dialog.handle_action .NextPhase
        = .ok (rn.1.merge_dialog, none) ∧
      c10_base.merge_dialog.handle_action .PrevPhase
        = .ok (rp.1.merge_dialog, none) ∧
      (c10_base.merge_dialog.focused = .BlendSlider →
        rn.1.merge_dialog.blend_a = c10_base.merge_dialog.blend_a.next ∧
        rp.1.merge_dialog.blend_a = c10_base.merge_dialog.blend_a.prev) :=
  merge_dialog_blocks_phase_navigation c10_base rfl

end Uniq
